import Mathlib

/-
Verification development for the Instagram-analytics worker core: the job
dispatcher, the encrypted session store, the Playwright-based collector and
the diff/aggregation routines of the Supabase service.  Each TypeScript
routine that a property refers to is embedded below as an executable Lean
definition; external library calls (Node's crypto cipher, JSON
serialization, the network, the record store) appear as explicit parameters
or as explicit input data, with their documented contracts as hypotheses.
Machine integers of the source are modelled as Nat/Int (counts never
overflow in the source's domain) and JS number division on metrics is
modelled over the rationals.
-/

set_option maxHeartbeats 1000000

/-
Section 1: generic helpers mirroring JavaScript primitives used by the
sources: hex encoding (Buffer .toString('hex') / Buffer.from(_, 'hex')),
String.prototype.includes, `new Set(array)` (insertion-ordered, first
occurrence kept), and insertion-ordered Map set/get.
-/

def hexDigits : List Char := "0123456789abcdef".data

def toHexChar (n : Nat) : Char := hexDigits.getD n '0'

def fromHexChar (c : Char) : Option Nat := hexDigits.indexOf? c

/- One byte to two lowercase hex characters, as Buffer.toString('hex'). -/
def byteToHex (b : Nat) : List Char := [toHexChar (b / 16), toHexChar (b % 16)]

def bytesToHex (bs : List Nat) : String := String.mk (bs.map byteToHex).flatten

/- Hex parsing as Buffer.from(s, 'hex'): consume the characters in pairs. -/
def hexPairsToBytes : List Char → Option (List Nat)
  | [] => some []
  | [_] => none
  | c₁ :: c₂ :: rest => do
      let hi ← fromHexChar c₁
      let lo ← fromHexChar c₂
      let tail ← hexPairsToBytes rest
      pure ((hi * 16 + lo) :: tail)

def hexToBytes (s : String) : Option (List Nat) := hexPairsToBytes s.data

theorem fromHexChar_toHexChar (n : Nat) (h : n < 16) :
    fromHexChar (toHexChar n) = some n := by
  have : ∀ m : Fin 16, fromHexChar (toHexChar m.val) = some m.val := by decide
  exact this ⟨n, h⟩

theorem hexPairs_roundtrip (bs : List Nat) (h : ∀ b ∈ bs, b < 256) :
    hexPairsToBytes ((bs.map byteToHex).flatten) = some bs := by
  induction bs with
  | nil => simp [hexPairsToBytes]
  | cons b rest ih =>
      have hb : b < 256 := h b (List.mem_cons_self b rest)
      have hdiv : b / 16 < 16 := by omega
      have hmod : b % 16 < 16 := by omega
      have hrest : hexPairsToBytes ((rest.map byteToHex).flatten) = some rest :=
        ih (fun x hx => h x (List.mem_cons_of_mem b hx))
      simp only [List.map_cons, List.flatten, byteToHex, List.cons_append, List.nil_append,
        hexPairsToBytes, fromHexChar_toHexChar _ hdiv, fromHexChar_toHexChar _ hmod,
        hrest, Option.bind_eq_bind, Option.some_bind]
      have : b / 16 * 16 + b % 16 = b := by omega
      simp [this, hrest]

theorem hexToBytes_bytesToHex (bs : List Nat) (h : ∀ b ∈ bs, b < 256) :
    hexToBytes (bytesToHex bs) = some bs := by
  simpa [hexToBytes, bytesToHex, String.mk] using hexPairs_roundtrip bs h

/-
Section 2: the shared package's error model, from
src/packages/shared/src/types.ts lines 249-287.  The ErrorCodes const
object maps each member name to itself as a string literal; class AppError
carries a string code, a message and a numeric statusCode (its optional
opaque `details` diagnostic record, unread by the core, is omitted).
-/

def ErrorCodes.INVALID_CREDENTIALS : String := "INVALID_CREDENTIALS"

def ErrorCodes.SESSION_EXPIRED : String := "SESSION_EXPIRED"

def ErrorCodes.UNAUTHORIZED : String := "UNAUTHORIZED"

def ErrorCodes.FORBIDDEN : String := "FORBIDDEN"

def ErrorCodes.INVALID_INPUT : String := "INVALID_INPUT"

def ErrorCodes.MISSING_REQUIRED_FIELD : String := "MISSING_REQUIRED_FIELD"

def ErrorCodes.IG_LOGIN_FAILED : String := "IG_LOGIN_FAILED"

def ErrorCodes.IG_2FA_REQUIRED : String := "IG_2FA_REQUIRED"

def ErrorCodes.IG_ACCOUNT_LOCKED : String := "IG_ACCOUNT_LOCKED"

def ErrorCodes.IG_RATE_LIMITED : String := "IG_RATE_LIMITED"

def ErrorCodes.IG_SCRAPE_FAILED : String := "IG_SCRAPE_FAILED"

def ErrorCodes.DATABASE_ERROR : String := "DATABASE_ERROR"

def ErrorCodes.NOT_FOUND : String := "NOT_FOUND"

def ErrorCodes.CONFLICT : String := "CONFLICT"

def ErrorCodes.INTERNAL_SERVER_ERROR : String := "INTERNAL_SERVER_ERROR"

def ErrorCodes.SERVICE_UNAVAILABLE : String := "SERVICE_UNAVAILABLE"

/- class AppError extends Error { code, message, statusCode, details? } -/
structure AppError where
  code : String
  message : String
  statusCode : Nat
  deriving DecidableEq, Repr

/-
Section 3: EncryptionService (src/unnamed/part_001).  The AES-256-CBC
cipher provided by Node's createCipheriv/createDecipheriv and the JSON
serialization of the payload are external library calls; they enter the
embedding as a CipherSpec / PayloadCodec parameter (key and IV passed
explicitly, the random IV of encrypt being an explicit argument).  The
repository-owned logic — JSON-stringify, fresh IV, cipher, hex encoding of
iv and ciphertext, the algorithm tag, and the tag check plus inverse
pipeline on decrypt — is embedded concretely.
-/

/- Wire format of the encrypted payload (src/packages/shared/src/types.ts lines 224-228). -/
structure EncryptedSessionPayload where
  iv : String
  encryptedData : String
  algorithm : String
  deriving DecidableEq, Repr

/- An external symmetric cipher: enc/dec over key, iv, byte string. -/
structure CipherSpec where
  enc : List Nat → List Nat → List Nat → List Nat
  dec : List Nat → List Nat → List Nat → List Nat

/- External JSON serialization of the session payload to utf8 bytes. -/
structure PayloadCodec (α : Type) where
  stringify : α → List Nat
  parse : List Nat → Option α

def ALGORITHM : String := "aes-256-cbc"

def EncryptionService.encrypt {α : Type} (cs : CipherSpec) (codec : PayloadCodec α)
    (key iv : List Nat) (payload : α) : EncryptedSessionPayload :=
  { iv := bytesToHex iv
    encryptedData := bytesToHex (cs.enc key iv (codec.stringify payload))
    algorithm := ALGORITHM }

def decryptFailure : AppError :=
  { code := ErrorCodes.INTERNAL_SERVER_ERROR
    message := "Failed to decrypt session payload. Key or payload may be corrupt."
    statusCode := 500 }

def EncryptionService.decrypt {α : Type} (cs : CipherSpec) (codec : PayloadCodec α)
    (key : List Nat) (p : EncryptedSessionPayload) : Except AppError α :=
  if p.algorithm ≠ ALGORITHM then
    .error decryptFailure
  else
    match hexToBytes p.iv with
    | none => .error decryptFailure
    | some iv =>
      match hexToBytes p.encryptedData with
      | none => .error decryptFailure
      | some ct =>
        match codec.parse (cs.dec key iv ct) with
        | none => .error decryptFailure
        | some payload => .ok payload

/--
C2: for every valid session payload p, decrypting the result of encrypting
p with the same key returns p exactly: decrypt (encrypt p) = p.  The
hypotheses are the documented contracts of the external calls: the block
cipher inverts itself under the same key and IV, JSON parse inverts JSON
stringify on valid payloads, and cipher output and IV are byte strings.
-/
theorem encryption_roundtrip {α : Type} (cs : CipherSpec) (codec : PayloadCodec α)
    (key iv : List Nat) (p : α)
    (hcipher : cs.dec key iv (cs.enc key iv (codec.stringify p)) = codec.stringify p)
    (hser : codec.parse (codec.stringify p) = some p)
    (hiv : ∀ b ∈ iv, b < 256)
    (hct : ∀ b ∈ cs.enc key iv (codec.stringify p), b < 256) :
    EncryptionService.decrypt cs codec key (EncryptionService.encrypt cs codec key iv p)
      = Except.ok p := by
  simp only [EncryptionService.decrypt, EncryptionService.encrypt,
    hexToBytes_bytesToHex iv hiv, hexToBytes_bytesToHex _ hct, hcipher, hser,
    ne_eq, not_true_eq_false, if_false]

/- A concrete valid cipher and codec used to instantiate the theorem. -/
def wCipher : CipherSpec :=
  { enc := fun _ _ m => m.map (fun b => (b + 1) % 256)
    dec := fun _ _ m => m.map (fun b => (b + 255) % 256) }

def wCodec : PayloadCodec Nat :=
  { stringify := fun n => [n % 256]
    parse := fun bs => match bs with | [b] => some b | _ => none }

theorem encryption_roundtrip_witness :
    EncryptionService.decrypt wCipher wCodec [7]
      (EncryptionService.encrypt wCipher wCodec [7] (List.range 16) 42) = Except.ok 42 :=
  encryption_roundtrip wCipher wCodec [7] (List.range 16) 42
    (by decide) (by decide) (by decide) (by decide)

/-
Section 4: the job dispatcher (src/apps/worker/src/index.ts processJob /
workerLoop, and SupabaseService.getNextPendingJob / updateJobStatus in
src/unnamed/part_000 lines 43-116).  The record store is modelled as the
list of job rows; its writes are the pure row updates the source issues
(one dispatcher instance, the source's documented single-claimant
assumption).  Timestamps (new Date()) enter as explicit arguments.
-/

inductive JobStatus where
  | PENDING
  | RUNNING
  | COMPLETED
  | FAILED
  deriving DecidableEq, Repr

structure SyncJob where
  id : Nat
  created_at : Nat
  status : JobStatus
  started_at : Option Nat
  finished_at : Option Nat
  processed_items : Nat
  error_message : Option String
  deriving DecidableEq, Repr

/- select * from sync_jobs where status = PENDING order by created_at asc limit 1 -/
def chooseOlder (acc : Option SyncJob) (j : SyncJob) : Option SyncJob :=
  match acc with
  | none => some j
  | some b => if j.created_at < b.created_at then some j else some b

def selectOldestPending (jobs : List SyncJob) : Option SyncJob :=
  (jobs.filter (fun j => decide (j.status = JobStatus.PENDING))).foldl chooseOlder none

/- update sync_jobs set status = RUNNING, started_at = now where id = jid -/
def markRunning (now : Nat) (jid : Nat) (jobs : List SyncJob) : List SyncJob :=
  jobs.map (fun j =>
    if j.id = jid then { j with status := JobStatus.RUNNING, started_at := some now } else j)

def getNextPendingJob (now : Nat) (jobs : List SyncJob) : Option SyncJob × List SyncJob :=
  match selectOldestPending jobs with
  | none => (none, jobs)
  | some j => (some j, markRunning now j.id jobs)

/- updateJobStatus only accepts the two terminal statuses, as in the source. -/
inductive TerminalStatus where
  | COMPLETED
  | FAILED
  deriving DecidableEq, Repr

def TerminalStatus.toStatus : TerminalStatus → JobStatus
  | .COMPLETED => JobStatus.COMPLETED
  | .FAILED => JobStatus.FAILED

def updateJobStatus (now : Nat) (jid : Nat) (st : TerminalStatus) (processed : Nat)
    (errMsg : Option String) (jobs : List SyncJob) : List SyncJob :=
  jobs.map (fun j =>
    if j.id = jid then
      { j with status := st.toStatus, finished_at := some now,
               processed_items := processed, error_message := errMsg }
    else j)

/- A thrown value in the worker: an AppError or any other exception. -/
inductive JsError where
  | app (e : AppError)
  | other (msg : String)
  deriving Repr

def renderErrorMessage : JsError → String
  | .app e => e.code ++ ": " ++ e.message
  | .other m => "Internal Error: " ++ m

structure JobReport where
  jobStatus : TerminalStatus
  processedItems : Nat
  errorMessage : Option String
  deriving Repr

/- processJob's catch: jobStatus flips to FAILED and errorMessage is set. -/
def processJobReport (outcome : Except JsError Nat) : JobReport :=
  match outcome with
  | .ok n => { jobStatus := .COMPLETED, processedItems := n, errorMessage := none }
  | .error e => { jobStatus := .FAILED, processedItems := 0,
                  errorMessage := some (renderErrorMessage e) }

/-
One iteration of the worker loop on a non-empty queue: claim the oldest
pending job (getNextPendingJob), run the handler (its result is the
`outcome` argument), and in the finally block issue the single terminal
updateJobStatus write.  The second component is the log of status writes
the cycle performs, as (job id, written status) pairs.
-/
def dispatchCycle (now₁ now₂ : Nat) (outcome : Except JsError Nat) (jobs : List SyncJob) :
    List SyncJob × List (Nat × JobStatus) :=
  match selectOldestPending jobs with
  | none => (jobs, [])
  | some j =>
    let claimed := markRunning now₁ j.id jobs
    let report := processJobReport outcome
    (updateJobStatus now₂ j.id report.jobStatus report.processedItems report.errorMessage claimed,
     [(j.id, JobStatus.RUNNING), (j.id, report.jobStatus.toStatus)])

def allowedTransition : JobStatus → JobStatus → Bool
  | .PENDING, .RUNNING => true
  | .RUNNING, .COMPLETED => true
  | .RUNNING, .FAILED => true
  | _, _ => false

def isTerminal : JobStatus → Bool
  | .COMPLETED => true
  | .FAILED => true
  | _ => false

theorem chooseOlder_foldl_mem (l : List SyncJob) (acc : Option SyncJob) (j : SyncJob)
    (h : l.foldl chooseOlder acc = some j) : acc = some j ∨ j ∈ l := by
  induction l generalizing acc with
  | nil => exact Or.inl h
  | cons x xs ih =>
      rcases ih (chooseOlder acc x) h with hx | hmem
      · cases acc with
        | none =>
            simp only [chooseOlder] at hx
            exact Or.inr (by simp [← Option.some_inj.mp hx])
        | some b =>
            simp only [chooseOlder] at hx
            by_cases hcmp : x.created_at < b.created_at
            · simp [hcmp] at hx
              exact Or.inr (by simp [← hx])
            · simp [hcmp] at hx
              exact Or.inl (by simp [hx])
      · exact Or.inr (List.mem_cons_of_mem x hmem)

theorem selectOldestPending_spec (jobs : List SyncJob) (j : SyncJob)
    (h : selectOldestPending jobs = some j) :
    j ∈ jobs ∧ j.status = JobStatus.PENDING := by
  rcases chooseOlder_foldl_mem _ none j h with habs | hmem
  · cases habs
  · have := List.mem_filter.mp hmem
    exact ⟨this.1, by simpa using this.2⟩

/--
C1: the dispatcher moves every job it touches along
PENDING → RUNNING → {COMPLETED, FAILED} only: the claim write sets the
selected PENDING job to RUNNING with a start time, the finally block
issues exactly one terminal write with a finish time, the cycle's write
log follows the allowed edges, and rows with other ids — in particular
every terminal row — are untouched, so no job skips RUNNING, stays
RUNNING after its handler returns, or leaves a terminal state.
-/
theorem job_status_lifecycle (now₁ now₂ : Nat) (outcome : Except JsError Nat)
    (jobs : List SyncJob) (j : SyncJob)
    (hsel : selectOldestPending jobs = some j)
    (hids : (jobs.map SyncJob.id).Nodup) :
    j.status = JobStatus.PENDING
    ∧ (∀ r ∈ (getNextPendingJob now₁ jobs).2, r.id = j.id →
        r.status = JobStatus.RUNNING ∧ r.started_at = some now₁)
    ∧ (∀ r ∈ (dispatchCycle now₁ now₂ outcome jobs).1, r.id = j.id →
        isTerminal r.status = true ∧ r.finished_at = some now₂
        ∧ r.status = (processJobReport outcome).jobStatus.toStatus)
    ∧ (dispatchCycle now₁ now₂ outcome jobs).2
        = [(j.id, JobStatus.RUNNING), (j.id, (processJobReport outcome).jobStatus.toStatus)]
    ∧ List.Chain' (fun a b => allowedTransition a b = true)
        (j.status :: ((dispatchCycle now₁ now₂ outcome jobs).2.map Prod.snd))
    ∧ ((dispatchCycle now₁ now₂ outcome jobs).2.filter (fun w => isTerminal w.2)).length = 1
    ∧ (∀ r ∈ jobs, r.id ≠ j.id → r ∈ (dispatchCycle now₁ now₂ outcome jobs).1)
    ∧ (∀ r ∈ jobs, isTerminal r.status = true → r ∈ (dispatchCycle now₁ now₂ outcome jobs).1) := by
  obtain ⟨hmem, hpend⟩ := selectOldestPending_spec jobs j hsel
  have hterm : ∀ st : TerminalStatus, isTerminal st.toStatus = true := by
    intro st; cases st <;> rfl
  refine ⟨hpend, ?_, ?_, ?_, ?_, ?_, ?_, ?_⟩
  · intro r hr hrid
    simp only [getNextPendingJob, hsel, markRunning, List.mem_map] at hr
    obtain ⟨a, _, ha⟩ := hr
    by_cases hid : a.id = j.id
    · simp [hid] at ha
      exact ⟨by simp [← ha], by simp [← ha]⟩
    · simp [hid] at ha
      exact absurd (ha ▸ hrid) hid
  · intro r hr hrid
    simp only [dispatchCycle, hsel, updateJobStatus, markRunning, List.map_map,
      List.mem_map] at hr
    obtain ⟨a, _, ha⟩ := hr
    by_cases hid : a.id = j.id
    · simp [Function.comp, hid] at ha
      refine ⟨?_, ?_, ?_⟩ <;> simp [← ha, hterm]
    · simp [Function.comp, hid] at ha
      exact absurd (ha ▸ hrid) hid
  · simp [dispatchCycle, hsel]
  · simp only [dispatchCycle, hsel, List.map_cons, List.map_nil]
    rw [hpend]
    refine List.chain'_cons.mpr ⟨rfl, List.chain'_cons.mpr ⟨?_, List.chain'_singleton _⟩⟩
    cases houtcome : (processJobReport outcome).jobStatus <;> rfl
  · simp only [dispatchCycle, hsel]
    cases houtcome : (processJobReport outcome).jobStatus <;> simp [isTerminal, TerminalStatus.toStatus]
  · intro r hr hrid
    simp only [dispatchCycle, hsel, updateJobStatus, markRunning, List.map_map, List.mem_map]
    refine ⟨r, hr, ?_⟩
    simp [Function.comp, hrid]
  · intro r hr hrterm
    have hrne : r.id ≠ j.id := by
      intro heq
      have hrj : r = j := by
        have := List.inj_on_of_nodup_map hids hr hmem heq
        exact this
      rw [hrj, hpend] at hrterm
      simp [isTerminal] at hrterm
    simp only [dispatchCycle, hsel, updateJobStatus, markRunning, List.map_map, List.mem_map]
    exact ⟨r, hr, by simp [Function.comp, hrne]⟩

def wJobPending : SyncJob :=
  { id := 1, created_at := 5, status := JobStatus.PENDING, started_at := none,
    finished_at := none, processed_items := 0, error_message := none }

def wJobDone : SyncJob :=
  { id := 2, created_at := 3, status := JobStatus.COMPLETED, started_at := some 1,
    finished_at := some 2, processed_items := 7, error_message := none }

theorem job_status_lifecycle_witness :
    (dispatchCycle 10 20 (Except.ok 3) [wJobPending, wJobDone]).2
      = [(1, JobStatus.RUNNING), (1, JobStatus.COMPLETED)] := by
  have h := job_status_lifecycle 10 20 (Except.ok 3) [wJobPending, wJobDone] wJobPending
    (by decide) (by decide)
  exact h.2.2.2.1

/-
Section 5: browser-resource handling for LOGIN jobs.  InstagramClient.login
(src/unnamed/part_000 lines 1315-1328) closes the browser in its catch
unless the error is IG_2FA_REQUIRED; processJob's finally block
(src/apps/worker/src/index.ts lines 199-214) closes it unless the job's
errorMessage contains the literal 'IG_2FA_REQUIRED' — which by
src/packages/shared/src/types.ts line 275 is exactly the string
ErrorCodes.IG_2FA_REQUIRED that login's catch compares codes against.
The substring test models String.prototype.includes.
-/

def listHasPre (pat l : List Char) : Bool :=
  match pat, l with
  | [], _ => true
  | _ :: _, [] => false
  | a :: ps, b :: ls => decide (a = b) && listHasPre ps ls

def listHasSub (pat l : List Char) : Bool :=
  match l with
  | [] => pat.isEmpty
  | c :: ls => listHasPre pat (c :: ls) || listHasSub pat ls

def jsIncludes (s pat : String) : Bool := listHasSub pat.data s.data

theorem listHasPre_append (p r : List Char) : listHasPre p (p ++ r) = true := by
  induction p with
  | nil => rfl
  | cons a ps ih => simp [listHasPre, ih]

theorem listHasSub_append (p r : List Char) : listHasSub p (p ++ r) = true := by
  cases hpr : p ++ r with
  | nil =>
      have : p = [] := (List.append_eq_nil.mp hpr).1
      simp [listHasSub, hpr, this]
  | cons c ls =>
      have : listHasPre p (p ++ r) = true := listHasPre_append p r
      rw [hpr] at this
      simp [listHasSub, hpr, this]

theorem jsIncludes_self_append (p r : String) : jsIncludes (p ++ r) p = true := by
  simpa [jsIncludes, String.data_append] using listHasSub_append p.data r.data

/- The finally block's test: errorMessage?.includes('IG_2FA_REQUIRED'). -/
def is2FACase (errorMessage : Option String) : Bool :=
  match errorMessage with
  | none => false
  | some m => jsIncludes m "IG_2FA_REQUIRED"

/- The finally block closes the browser iff a client exists and the job is not a 2FA case. -/
def workerCloses (clientCreated : Bool) (errorMessage : Option String) : Bool :=
  clientCreated && !(is2FACase errorMessage)

/-
login's catch: the browser stays open on success (the worker closes it
later) and on an IG_2FA_REQUIRED error; on any other error login itself
calls close().
-/
def loginBrowserOpen (r : Except AppError Nat) : Bool :=
  match r with
  | .ok _ => true
  | .error e => decide (e.code = ErrorCodes.IG_2FA_REQUIRED)

/-
Resource outcome of one LOGIN job: loginRes is what client.login returned
or threw; postLogin is the outcome of the remaining handler steps (session
save, profile update, follow-up job inserts) when login succeeded.
Returns (browser still open after processJob's finally, the job report).
-/
def processLoginResource (loginRes : Except AppError Nat) (postLogin : Except JsError Nat) :
    Bool × JobReport :=
  let outcome : Except JsError Nat :=
    match loginRes with
    | .error e => .error (.app e)
    | .ok _ => postLogin
  let report := processJobReport outcome
  let openAfterHandler := loginBrowserOpen loginRes
  (openAfterHandler && !(workerCloses true report.errorMessage), report)

/--
C5: a LOGIN job failing with the distinguished IG_2FA_REQUIRED code is
reported FAILED with that code in its error message and the browser is
deliberately kept open; every other login failure and every success path
releases the browser (on success, provided the eventual job outcome's
message does not itself embed the literal code — true of every message the
sources produce for non-2FA errors).
-/
theorem login_second_factor_resource (loginRes : Except AppError Nat)
    (postLogin : Except JsError Nat) :
    (∀ e, loginRes = .error e → e.code = ErrorCodes.IG_2FA_REQUIRED →
      (processLoginResource loginRes postLogin).2.jobStatus = TerminalStatus.FAILED
      ∧ (processLoginResource loginRes postLogin).2.errorMessage
          = some ("IG_2FA_REQUIRED" ++ ": " ++ e.message)
      ∧ (processLoginResource loginRes postLogin).1 = true)
    ∧ (∀ e, loginRes = .error e → e.code ≠ ErrorCodes.IG_2FA_REQUIRED →
      (processLoginResource loginRes postLogin).1 = false)
    ∧ (loginRes.isOk = true →
      is2FACase (processJobReport postLogin).errorMessage = false →
      (processLoginResource loginRes postLogin).1 = false) := by
  refine ⟨?_, ?_, ?_⟩
  · intro e he hcode
    subst he
    refine ⟨rfl, ?_, ?_⟩
    · simp [processLoginResource, processJobReport, renderErrorMessage, hcode,
        ErrorCodes.IG_2FA_REQUIRED]
    · simp only [processLoginResource, processJobReport, renderErrorMessage,
        loginBrowserOpen, workerCloses, is2FACase, hcode, ErrorCodes.IG_2FA_REQUIRED]
      rw [String.append_assoc]
      simp [jsIncludes_self_append]
  · intro e he hcode
    subst he
    simp [processLoginResource, loginBrowserOpen, hcode]
  · intro hok h2fa
    cases loginRes with
    | error e => simp [Except.isOk, Except.toBool] at hok
    | ok n =>
        simp [processLoginResource, loginBrowserOpen, workerCloses, h2fa]

theorem login_second_factor_resource_witness :
    (processLoginResource
        (Except.error { code := ErrorCodes.IG_2FA_REQUIRED,
                        message := "2FA was not completed within 10 minutes.",
                        statusCode := 401 })
        (Except.ok 0)).1 = true := by
  have h := login_second_factor_resource
    (Except.error { code := ErrorCodes.IG_2FA_REQUIRED,
                    message := "2FA was not completed within 10 minutes.",
                    statusCode := 401 })
    (Except.ok 0)
  exact (h.1 _ rfl rfl).2.2

/-
Section 6: InstagramClient.fetchUserListViaGraphQL (src/unnamed/part_000
lines 1611-1713).  The network is modelled as the sequence of responses
the successive GraphQL fetches would return: each element is either a
thrown fetch/parse error or a parsed page (edge nodes plus page_info).
JS falsy coalescing (x || y, x || false, x || null) is modelled by the
jsOr* helpers.
-/

structure ScrapedUser where
  ig_id : String
  username : String
  full_name : Option String
  is_private : Bool
  is_verified : Bool
  profile_pic_url : Option String
  deriving DecidableEq, Repr

def jsOrStr (a : Option String) (b : String) : String :=
  match a with
  | some s => if s = "" then b else s
  | none => b

def jsOrBool (a : Option Bool) : Bool := a.getD false

def jsOrNull (a : Option String) : Option String :=
  match a with
  | some s => if s = "" then none else some s
  | none => none

structure GqlNode where
  id : Option String
  username : String
  full_name : Option String
  is_private : Option Bool
  is_verified : Option Bool
  profile_pic_url : Option String
  deriving DecidableEq, Repr

structure PageInfo where
  has_next_page : Option Bool
  end_cursor : Option String
  deriving DecidableEq, Repr

/- One parsed GraphQL response page; edges are given by their nodes. -/
structure GqlPage where
  edges : List GqlNode
  page_info : PageInfo
  deriving DecidableEq, Repr

/- users.push({...}) of the inner for loop. -/
def mkUser (node : GqlNode) : ScrapedUser :=
  { ig_id := jsOrStr node.id node.username
    username := node.username
    full_name := jsOrNull node.full_name
    is_private := jsOrBool node.is_private
    is_verified := jsOrBool node.is_verified
    profile_pic_url := jsOrNull node.profile_pic_url }

/- afterCursor = pageInfo.end_cursor || null, tested for truthiness. -/
def cursorFalsy (c : Option String) : Bool :=
  match c with
  | none => true
  | some s => decide (s = "")

/-
The inner for loop over edges: push each node, stop (setting
hasNextPage = false) once maxCount is reached.  Returns the grown list and
whether the cap was hit.
-/
def extractUsers (maxCount : Int) (users : List ScrapedUser) (edges : List GqlNode) :
    List ScrapedUser × Bool :=
  match edges with
  | [] => (users, false)
  | n :: rest =>
      if maxCount ≠ -1 ∧ maxCount ≤ ((users ++ [mkUser n]).length : Int) then
        (users ++ [mkUser n], true)
      else extractUsers maxCount (users ++ [mkUser n]) rest

/-
The while loop: the condition re-checks the cap each turn; a fetch/parse
failure breaks out of the loop (the catch) returning what was collected; a
zero-edge page breaks; a missing next page or falsy cursor breaks after
collecting the page.
-/
def fetchLoop (maxCount : Int) (users : List ScrapedUser)
    (pages : List (Except String GqlPage)) : List ScrapedUser :=
  if maxCount = -1 ∨ (users.length : Int) < maxCount then
    match pages with
    | [] => users
    | .error _ :: _ => users
    | .ok page :: rest =>
        if page.edges.length = 0 then users
        else
          let res := extractUsers maxCount users page.edges
          if res.2 then res.1
          else if !(jsOrBool page.page_info.has_next_page) || cursorFalsy page.page_info.end_cursor then res.1
          else fetchLoop maxCount res.1 rest
  else users

def fetchUserListViaGraphQL (maxCount : Int) (pages : List (Except String GqlPage)) :
    List ScrapedUser :=
  fetchLoop maxCount [] pages

theorem extractUsers_length (maxCount : Int) (edges : List GqlNode) :
    ∀ users : List ScrapedUser, (users.length : Int) < maxCount →
      (((extractUsers maxCount users edges).1.length : Int)) ≤ maxCount := by
  induction edges with
  | nil => intro users h; simpa [extractUsers] using le_of_lt h
  | cons n rest ih =>
      intro users h
      rw [extractUsers]
      have hlen : ((users ++ [mkUser n]).length : Int) = (users.length : Int) + 1 := by
        simp
      by_cases hcap : maxCount ≠ -1 ∧ maxCount ≤ ((users ++ [mkUser n]).length : Int)
      · rw [if_pos hcap]
        show ((users ++ [mkUser n]).length : Int) ≤ maxCount
        omega
      · rw [if_neg hcap]
        by_cases hlt : ((users ++ [mkUser n]).length : Int) < maxCount
        · exact ih _ hlt
        · exfalso
          apply hcap
          constructor
          · omega
          · omega

theorem fetchLoop_length (maxCount : Int) (hm : 0 ≤ maxCount)
    (pages : List (Except String GqlPage)) :
    ∀ users : List ScrapedUser, (users.length : Int) ≤ maxCount →
      ((fetchLoop maxCount users pages).length : Int) ≤ maxCount := by
  induction pages with
  | nil =>
      intro users h
      rw [fetchLoop]
      split <;> simpa using h
  | cons p rest ih =>
      intro users h
      cases p with
      | error msg =>
          rw [fetchLoop]
          split <;> simpa using h
      | ok page =>
          rw [fetchLoop]
          by_cases hcond : maxCount = -1 ∨ (users.length : Int) < maxCount
          swap
          · simp only [hcond, if_false]
            simpa using h
          have hlt : (users.length : Int) < maxCount := by omega
          simp only [hcond, if_true]
          by_cases hz : page.edges.length = 0
          · simp only [hz, if_true]; simpa using h
          · simp only [hz, if_false]
            have hex := extractUsers_length maxCount page.edges users hlt
            by_cases hhit : (extractUsers maxCount users page.edges).2
            · simp only [hhit, if_true]; exact hex
            · simp only [hhit]
              by_cases hb2 : (!(jsOrBool page.page_info.has_next_page)
                  || cursorFalsy page.page_info.end_cursor) = true
              · rw [if_pos hb2]; exact hex
              · rw [if_neg hb2]; exact ih _ hex

/--
C6: pagination stops on a zero-item page, on a missing next cursor, or
when the accumulated count reaches maxCount (-1 meaning no cap: the
collected list never exceeds a non-negative maxCount), and a failed page
fetch aborts the loop returning the items collected so far instead of
propagating the error (the result is independent of every page after the
failing one).
-/
theorem pagination_partial_results (maxCount : Int) :
    (∀ (users : List ScrapedUser) (msg : String) (rest : List (Except String GqlPage)),
      fetchLoop maxCount users (Except.error msg :: rest) = users)
    ∧ (∀ (users : List ScrapedUser) (page : GqlPage) (rest : List (Except String GqlPage)),
      page.edges = [] → fetchLoop maxCount users (Except.ok page :: rest) = users)
    ∧ (∀ (users : List ScrapedUser) (page : GqlPage) (rest : List (Except String GqlPage)),
      jsOrBool page.page_info.has_next_page = false
        ∨ cursorFalsy page.page_info.end_cursor = true →
      fetchLoop maxCount users (Except.ok page :: rest)
        = fetchLoop maxCount users [Except.ok page])
    ∧ (0 ≤ maxCount → ∀ pages : List (Except String GqlPage),
      ((fetchUserListViaGraphQL maxCount pages).length : Int) ≤ maxCount) := by
  refine ⟨?_, ?_, ?_, ?_⟩
  · intro users msg rest
    rw [fetchLoop]
    split <;> rfl
  · intro users page rest hz
    rw [fetchLoop]
    split
    · simp [hz]
    · rfl
  · intro users page rest hstop
    have hb : (!(jsOrBool page.page_info.has_next_page)
        || cursorFalsy page.page_info.end_cursor) = true := by
      rcases hstop with h | h <;> simp [h]
    rw [fetchLoop]
    conv_rhs => rw [fetchLoop]
    split
    · by_cases hz : page.edges.length = 0
      · simp [hz]
      · simp [hz, hb]
    · rfl
  · intro hm pages
    exact fetchLoop_length maxCount hm pages [] (by simpa using hm)

def wNode : GqlNode :=
  { id := some "n1", username := "u1", full_name := none, is_private := some false,
    is_verified := none, profile_pic_url := none }

def wPages : List (Except String GqlPage) :=
  [Except.ok { edges := [wNode, wNode, wNode],
               page_info := { has_next_page := some true, end_cursor := some "cur" } },
   Except.ok { edges := [wNode],
               page_info := { has_next_page := some false, end_cursor := none } }]

theorem pagination_partial_results_witness :
    ((fetchUserListViaGraphQL 2 wPages).length : Int) ≤ 2 :=
  (pagination_partial_results 2).2.2.2 (by decide) wPages

/-
Section 7: SupabaseService.deriveMetrics (src/unnamed/part_000 lines
520-700).  The record-store reads enter as input data: the profile row,
the account's media rows, and the result of the previous-insight query
(profile_insights_daily ordered by date descending, limit 1).  The
JS Map used for hashtag aggregation is modelled by an insertion-ordered
association list with in-place update (mapSet / mapGet).
-/

def mapSet {α : Type} : List (String × α) → String → α → List (String × α)
  | [], k, v => [(k, v)]
  | (k', v') :: rest, k, v =>
      if k' = k then (k, v) :: rest else (k', v') :: mapSet rest k v

def mapGet {α : Type} : List (String × α) → String → Option α
  | [], _ => none
  | (k', v') :: rest, k => if k' = k then some v' else mapGet rest k

theorem mapGet_mapSet {α : Type} (m : List (String × α)) (k k' : String) (v : α) :
    mapGet (mapSet m k v) k' = if k' = k then some v else mapGet m k' := by
  induction m with
  | nil =>
      by_cases h : k' = k
      · subst h; simp [mapSet, mapGet]
      · simp [mapSet, mapGet, h, Ne.symm h]
  | cons e rest ih =>
      obtain ⟨a, b⟩ := e
      by_cases hak : a = k
      · subst hak
        by_cases hk : k' = a
        · subst hk; simp [mapSet, mapGet]
        · simp [mapSet, mapGet, hk, Ne.symm hk]
      · by_cases hk : a = k'
        · subst hk
          simp [mapSet, mapGet, hak, Ne.symm hak]
        · simp [mapSet, mapGet, hak, hk, ih]

theorem mapSet_entry_sub {α : Type} (m : List (String × α)) (k : String) (v : α)
    (p : String × α) (hp : p ∈ mapSet m k v) : p = (k, v) ∨ p ∈ m := by
  induction m with
  | nil => simpa [mapSet] using hp
  | cons e rest ih =>
      by_cases h : e.1 = k
      · rcases e with ⟨a, b⟩
        simp only [mapSet] at hp
        rw [if_pos h] at hp
        rcases List.mem_cons.mp hp with h1 | h2
        · exact Or.inl h1
        · exact Or.inr (List.mem_cons_of_mem _ h2)
      · rcases e with ⟨a, b⟩
        simp only [mapSet] at hp
        rw [if_neg h] at hp
        rcases List.mem_cons.mp hp with h1 | h2
        · exact Or.inr (by simp [h1])
        · rcases ih h2 with h3 | h4
          · exact Or.inl h3
          · exact Or.inr (List.mem_cons_of_mem _ h4)

theorem mapGet_mem {α : Type} (m : List (String × α)) (k : String) (v : α)
    (h : mapGet m k = some v) : (k, v) ∈ m := by
  induction m with
  | nil => simp [mapGet] at h
  | cons e rest ih =>
      rcases e with ⟨a, b⟩
      simp only [mapGet] at h
      by_cases hak : a = k
      · rw [if_pos hak] at h
        subst hak
        simp [Option.some_inj.mp h]
      · rw [if_neg hak] at h
        exact List.mem_cons_of_mem _ (ih h)

/- m.likes_count || 0 etc.: null and 0 both collapse to 0. -/
def jsOrNat (a : Option Nat) : Nat :=
  match a with
  | some n => n
  | none => 0

structure MediaRow where
  likes_count : Option Nat
  comments_count : Option Nat
  hashtags : List String
  timestamp : Nat
  deriving DecidableEq, Repr

structure ProfileRow where
  followers_count : Option Nat
  deriving DecidableEq, Repr

structure InsightRow where
  followers_count : Nat
  deriving DecidableEq, Repr

def totalLikes (media : List MediaRow) : Nat :=
  media.foldl (fun s m => s + jsOrNat m.likes_count) 0

def totalComments (media : List MediaRow) : Nat :=
  media.foldl (fun s m => s + jsOrNat m.comments_count) 0

def totalEngagement (media : List MediaRow) : Nat :=
  totalLikes media + totalComments media

def postsCount (media : List MediaRow) : Nat := media.length

def followersCountOf (profile : ProfileRow) : Nat := jsOrNat profile.followers_count

/- engagementRate = followersCount > 0 && postsCount > 0 ? ((E/posts)/followers)*100 : 0 -/
def engagementRate (profile : ProfileRow) (media : List MediaRow) : ℚ :=
  if 0 < followersCountOf profile ∧ 0 < postsCount media then
    ((totalEngagement media : ℚ) / (postsCount media : ℚ)) / (followersCountOf profile : ℚ) * 100
  else 0

/- previousInsights?.[0]?.followers_count || followersCount -/
def previousFollowersCount (previousInsights : List InsightRow) (followersCount : Nat) : Nat :=
  match previousInsights with
  | [] => followersCount
  | r :: _ => if r.followers_count = 0 then followersCount else r.followers_count

def followersGrowth (previousInsights : List InsightRow) (followersCount : Nat) : Int :=
  (followersCount : Int) - (previousFollowersCount previousInsights followersCount : Int)

structure DailyInsightRow where
  followers_count : Nat
  followers_growth : Int
  engagement_rate : ℚ
  reach : Nat
  impressions : Nat
  deriving DecidableEq, Repr

/- The row upserted into profile_insights_daily; reach and impressions are the literal constants 0 of the source. -/
def dailyInsightRow (profile : ProfileRow) (media : List MediaRow)
    (previousInsights : List InsightRow) : DailyInsightRow :=
  { followers_count := followersCountOf profile
    followers_growth := followersGrowth previousInsights (followersCountOf profile)
    engagement_rate := engagementRate profile media
    reach := 0
    impressions := 0 }

theorem foldl_add_eq_sum {α : Type} (f : α → Nat) (l : List α) :
    ∀ init : Nat, l.foldl (fun s m => s + f m) init = init + (l.map f).sum := by
  induction l with
  | nil => intro init; simp
  | cons x xs ih =>
      intro init
      simp only [List.foldl_cons, List.map_cons, List.sum_cons, ih (init + f x)]
      omega

def wProfileC7 : ProfileRow := { followers_count := some 1000 }

def wMediaItemC7 : MediaRow :=
  { likes_count := some 60, comments_count := some 40, hashtags := [], timestamp := 0 }

def wMediaC7 : List MediaRow :=
  [wMediaItemC7, wMediaItemC7, wMediaItemC7, wMediaItemC7, wMediaItemC7]

/--
C7: deriveMetrics computes total_engagement as the sum of likes+comments
over the stored media rows, and engagement_rate as
(total_engagement / content_count) / followers_count * 100 — equivalently
total_engagement * 100 / (content_count * followers_count) — with rate 0
whenever content_count or followers_count is 0; with followers_count 1000,
5 items and total engagement 500 the stored rate is 10.
-/
theorem engagement_rate_spec (profile : ProfileRow) (media : List MediaRow)
    (previousInsights : List InsightRow) :
    totalEngagement media
        = (media.map (fun m => jsOrNat m.likes_count + jsOrNat m.comments_count)).sum
    ∧ (postsCount media = 0 ∨ followersCountOf profile = 0 →
        (dailyInsightRow profile media previousInsights).engagement_rate = 0)
    ∧ (0 < followersCountOf profile → 0 < postsCount media →
        (dailyInsightRow profile media previousInsights).engagement_rate
          = (totalEngagement media : ℚ) * 100
              / ((postsCount media : ℚ) * (followersCountOf profile : ℚ)))
    ∧ totalEngagement wMediaC7 = 500
    ∧ (dailyInsightRow wProfileC7 wMediaC7 []).engagement_rate = 10 := by
  have hE : totalEngagement wMediaC7 = 500 := by decide
  have hRate : (dailyInsightRow wProfileC7 wMediaC7 []).engagement_rate = 10 := by
    have h1000 : followersCountOf wProfileC7 = 1000 := by decide
    have h5 : postsCount wMediaC7 = 5 := rfl
    simp only [dailyInsightRow, engagementRate, h1000, h5, hE]
    norm_num
  refine ⟨?_, ?_, ?_, hE, hRate⟩
  · simp only [totalEngagement, totalLikes, totalComments,
      foldl_add_eq_sum (fun m => jsOrNat m.likes_count) media 0,
      foldl_add_eq_sum (fun m => jsOrNat m.comments_count) media 0, Nat.zero_add]
    induction media with
    | nil => simp
    | cons x xs ih => simp only [List.map_cons, List.sum_cons]; omega
  · intro h
    simp only [dailyInsightRow, engagementRate]
    rw [if_neg]
    rcases h with h | h <;> omega
  · intro hf hp
    simp only [dailyInsightRow, engagementRate, if_pos (And.intro hf hp)]
    have hpq : (postsCount media : ℚ) ≠ 0 := by positivity
    have hfq : (followersCountOf profile : ℚ) ≠ 0 := by positivity
    field_simp

theorem engagement_rate_spec_witness :
    (dailyInsightRow wProfileC7 wMediaC7 []).engagement_rate
      = (totalEngagement wMediaC7 : ℚ) * 100
          / ((postsCount wMediaC7 : ℚ) * (followersCountOf wProfileC7 : ℚ)) :=
  (engagement_rate_spec wProfileC7 wMediaC7 []).2.2.1 (by decide) (by decide)

/--
C9 as stated fails: with a most-recent prior insight whose followers_count
is 0 and a current count of 100, the source's `|| followersCount` fallback
kicks in even though a prior insight exists, producing growth 0 instead of
the claimed 100.
-/
theorem followers_growth_counterexample :
    ¬ (followersGrowth [{ followers_count := 0 }] 100
        = (100 : Int) - (({ followers_count := 0 } : InsightRow).followers_count : Int)) := by
  decide

/--
C9 (amended): followers_growth = current − previous, where previous is the
most recent daily insight's followers_count when that value is non-zero,
and the current count otherwise — i.e. when no prior insight exists or its
stored count is 0 — yielding 0 growth in the fallback cases.
-/
theorem followers_growth_amended (previousInsights : List InsightRow) (followersCount : Nat) :
    (previousInsights = [] → followersGrowth previousInsights followersCount = 0)
    ∧ (∀ r rest, previousInsights = r :: rest → r.followers_count = 0 →
        followersGrowth previousInsights followersCount = 0)
    ∧ (∀ r rest, previousInsights = r :: rest → r.followers_count ≠ 0 →
        followersGrowth previousInsights followersCount
          = (followersCount : Int) - (r.followers_count : Int)) := by
  refine ⟨?_, ?_, ?_⟩
  · intro h; subst h; simp [followersGrowth, previousFollowersCount]
  · intro r rest h hz; subst h
    simp [followersGrowth, previousFollowersCount, hz]
  · intro r rest h hz; subst h
    simp [followersGrowth, previousFollowersCount, hz]

theorem followers_growth_amended_witness :
    followersGrowth [{ followers_count := 40 }] 100 = (100 : Int) - 40 :=
  (followers_growth_amended [{ followers_count := 40 }] 100).2.2
    { followers_count := 40 } [] rfl (by decide)

/--
C10: every DailyInsight row deriveMetrics upserts carries reach = 0 and
impressions = 0, for all inputs: the two fields are literal constants of
the operation.
-/
theorem daily_insight_constants (profile : ProfileRow) (media : List MediaRow)
    (previousInsights : List InsightRow) :
    (dailyInsightRow profile media previousInsights).reach = 0
    ∧ (dailyInsightRow profile media previousInsights).impressions = 0 :=
  ⟨rfl, rfl⟩

/-
Section 8: hashtag aggregation of deriveMetrics (src/unnamed/part_000
lines 607-695) together with the caption tokenizer of the scraper
(/#\w+/g with the marker stripped, src/unnamed/part_000 lines 1830-1846),
which produces the hashtags column the aggregation reads.
-/

def isWordChar (c : Char) : Bool := c.isAlphanum || c = '_'

/- Scanner for the /#\w+/g matches of a caption, already stripped of '#'. -/
def scanTagsFuel : Nat → List Char → List (List Char)
  | 0, _ => []
  | _ + 1, [] => []
  | fuel + 1, c :: rest =>
      if c = '#' then
        (if (rest.takeWhile isWordChar).isEmpty then scanTagsFuel fuel rest
         else rest.takeWhile isWordChar
              :: scanTagsFuel fuel (rest.drop (rest.takeWhile isWordChar).length))
      else scanTagsFuel fuel rest

def extractHashtags (caption : String) : List String :=
  (scanTagsFuel caption.data.length caption.data).map (fun w => String.mk w)

/- tag.startsWith('#'), as a character-level prefix test. -/
def strStarts (s pre : String) : Bool := listHasPre pre.data s.data

/- cleanTag = tag.startsWith('#') ? tag : '#' + tag -/
def cleanTag (t : String) : String := if strStarts t "#" then t else "#" ++ t

def tagOcc (k : String) (tags : List String) : Nat :=
  (tags.filter (fun t => decide (cleanTag t = k))).length

def bearsTag (k : String) (post : MediaRow) : Bool :=
  post.hashtags.any (fun t => decide (cleanTag t = k))

def postsBearing (k : String) (media : List MediaRow) : List MediaRow :=
  media.filter (bearsTag k)

structure TagStat where
  count : Nat
  totalLikes : Nat
  totalComments : Nat
  firstUsed : Nat
  lastUsed : Nat
  deriving DecidableEq, Repr

/- The per-tag update of the hashtagStats Map for one occurrence. -/
def tagStep (likes comments postDate : Nat) (m : List (String × TagStat)) (tag : String) :
    List (String × TagStat) :=
  match mapGet m (cleanTag tag) with
  | some current =>
      mapSet m (cleanTag tag)
        { count := current.count + 1
          totalLikes := current.totalLikes + likes
          totalComments := current.totalComments + comments
          firstUsed := if postDate < current.firstUsed then postDate else current.firstUsed
          lastUsed := if postDate > current.lastUsed then postDate else current.lastUsed }
  | none =>
      mapSet m (cleanTag tag)
        { count := 1, totalLikes := likes, totalComments := comments,
          firstUsed := postDate, lastUsed := postDate }

def hashtagStats (media : List MediaRow) : List (String × TagStat) :=
  media.foldl
    (fun m post => post.hashtags.foldl
      (tagStep (jsOrNat post.likes_count) (jsOrNat post.comments_count) post.timestamp) m)
    []

structure HashtagMetricRow where
  hashtag : String
  usage_count : Nat
  total_engagement : Nat
  avg_engagement : ℚ
  first_used : Nat
  last_used : Nat
  deriving DecidableEq, Repr

def mkMetricRow (p : String × TagStat) : HashtagMetricRow :=
  { hashtag := p.1
    usage_count := p.2.count
    total_engagement := p.2.totalLikes + p.2.totalComments
    avg_engagement := ((p.2.totalLikes + p.2.totalComments : Nat) : ℚ) / (p.2.count : ℚ)
    first_used := p.2.firstUsed
    last_used := p.2.lastUsed }

def hashtagMetrics (media : List MediaRow) : List HashtagMetricRow :=
  (hashtagStats media).map mkMetricRow

/-
The table update: the delete-all-then-insert happens only inside
`if (media.length > 0)` and `if (hashtagMetrics.length > 0)`; otherwise
the old rows stay.
-/
def newHashtagTable (old : List HashtagMetricRow) (media : List MediaRow) :
    List HashtagMetricRow :=
  if 0 < media.length then
    (if 0 < (hashtagMetrics media).length then hashtagMetrics media else old)
  else old

/- One occurrence's effect on the optional accumulated stat for a key. -/
def bumpTag (l c d : Nat) : Option TagStat → Option TagStat
  | none => some { count := 1, totalLikes := l, totalComments := c, firstUsed := d, lastUsed := d }
  | some s => some
      { count := s.count + 1
        totalLikes := s.totalLikes + l
        totalComments := s.totalComments + c
        firstUsed := if d < s.firstUsed then d else s.firstUsed
        lastUsed := if d > s.lastUsed then d else s.lastUsed }

def stepPost (k : String) (acc : Option TagStat) (p : MediaRow) : Option TagStat :=
  (bumpTag (jsOrNat p.likes_count) (jsOrNat p.comments_count) p.timestamp)^[tagOcc k p.hashtags] acc

theorem mapGet_tagStep (l c d : Nat) (m : List (String × TagStat)) (t k : String) :
    mapGet (tagStep l c d m t) k
      = if cleanTag t = k then bumpTag l c d (mapGet m k) else mapGet m k := by
  by_cases h : cleanTag t = k
  · rw [if_pos h]
    cases hget : mapGet m (cleanTag t) with
    | none =>
        rw [h] at hget
        simp [tagStep, h ▸ hget, mapGet_mapSet, h, hget, bumpTag]
    | some cur =>
        rw [h] at hget
        simp [tagStep, h ▸ hget, mapGet_mapSet, h, hget, bumpTag]
  · rw [if_neg h]
    cases hget : mapGet m (cleanTag t) with
    | none =>
        simp [tagStep, hget, mapGet_mapSet]
        intro hh
        exact absurd hh.symm h
    | some cur =>
        simp [tagStep, hget, mapGet_mapSet]
        intro hh
        exact absurd hh.symm h

theorem tagOcc_cons_pos (k t : String) (ts : List String) (h : cleanTag t = k) :
    tagOcc k (t :: ts) = tagOcc k ts + 1 := by
  simp [tagOcc, h]

theorem tagOcc_cons_neg (k t : String) (ts : List String) (h : ¬ cleanTag t = k) :
    tagOcc k (t :: ts) = tagOcc k ts := by
  simp [tagOcc, h]

theorem mapGet_tagsFold (l c d : Nat) (k : String) (tags : List String) :
    ∀ m, mapGet (tags.foldl (tagStep l c d) m) k
      = (bumpTag l c d)^[tagOcc k tags] (mapGet m k) := by
  induction tags with
  | nil => intro m; simp [tagOcc]
  | cons t ts ih =>
      intro m
      by_cases h : cleanTag t = k
      · rw [List.foldl_cons, ih, mapGet_tagStep, if_pos h, tagOcc_cons_pos k t ts h,
          Function.iterate_succ_apply]
      · rw [List.foldl_cons, ih, mapGet_tagStep, if_neg h, tagOcc_cons_neg k t ts h]

theorem mapGet_hashtagStats (k : String) (media : List MediaRow) :
    mapGet (hashtagStats media) k = media.foldl (stepPost k) none := by
  suffices h : ∀ (l : List MediaRow) (m : List (String × TagStat)),
      mapGet (l.foldl (fun acc post => post.hashtags.foldl
          (tagStep (jsOrNat post.likes_count) (jsOrNat post.comments_count) post.timestamp) acc) m) k
        = l.foldl (stepPost k) (mapGet m k) by
    simpa [hashtagStats, mapGet] using h media []
  intro l
  induction l with
  | nil => intro m; simp
  | cons p ps ih =>
      intro m
      rw [List.foldl_cons, ih, List.foldl_cons]
      congr 1
      rw [mapGet_tagsFold]
      rfl

theorem tagOcc_zero_iff (k : String) (tags : List String) :
    tagOcc k tags = 0 ↔ tags.any (fun t => decide (cleanTag t = k)) = false := by
  induction tags with
  | nil => simp [tagOcc]
  | cons t ts ih =>
      by_cases h : cleanTag t = k
      · simp [tagOcc, h, List.any_cons]
      · simp only [List.any_cons, tagOcc_cons_neg k t ts h]
        simpa [h] using ih

theorem sum_map_add {α : Type} (f g : α → Nat) (l : List α) :
    (l.map fun x => f x + g x).sum = (l.map f).sum + (l.map g).sum := by
  induction l with
  | nil => simp
  | cons x xs ih => simp only [List.map_cons, List.sum_cons, ih]; omega

/-
Characterization of the per-key fold: under at most one occurrence of the
key per post (no duplicated tag inside one caption), the accumulated stat
for a key counts the posts bearing the tag, sums their likes and comments,
and tracks the minimum and maximum timestamps among them.
-/
theorem stats_fold_spec (k : String) :
    ∀ media : List MediaRow, (∀ p ∈ media, tagOcc k p.hashtags ≤ 1) →
      ((media.foldl (stepPost k) none = none → postsBearing k media = [])
      ∧ (∀ s, media.foldl (stepPost k) none = some s →
          s.count = (postsBearing k media).length
          ∧ s.totalLikes = ((postsBearing k media).map (fun p => jsOrNat p.likes_count)).sum
          ∧ s.totalComments
              = ((postsBearing k media).map (fun p => jsOrNat p.comments_count)).sum
          ∧ s.firstUsed ∈ (postsBearing k media).map MediaRow.timestamp
          ∧ (∀ t ∈ (postsBearing k media).map MediaRow.timestamp, s.firstUsed ≤ t)
          ∧ s.lastUsed ∈ (postsBearing k media).map MediaRow.timestamp
          ∧ (∀ t ∈ (postsBearing k media).map MediaRow.timestamp, t ≤ s.lastUsed))) := by
  intro media
  induction media using List.reverseRecOn with
  | nil =>
      intro _
      refine ⟨fun _ => rfl, ?_⟩
      intro s hs
      simp at hs
  | append_singleton ps p ih =>
      intro hocc
      have hocc_ps : ∀ q ∈ ps, tagOcc k q.hashtags ≤ 1 :=
        fun q hq => hocc q (List.mem_append_left _ hq)
      have hocc_p : tagOcc k p.hashtags ≤ 1 := hocc p (by simp)
      obtain ⟨ih1, ih2⟩ := ih hocc_ps
      have hfold : (ps ++ [p]).foldl (stepPost k) none
          = stepPost k (ps.foldl (stepPost k) none) p := by
        simp [List.foldl_append]
      rcases Nat.eq_zero_or_pos (tagOcc k p.hashtags) with h0 | hpos
      · have hbear : bearsTag k p = false := by
          have := (tagOcc_zero_iff k p.hashtags).mp h0
          simpa [bearsTag] using this
        have hpb : postsBearing k (ps ++ [p]) = postsBearing k ps := by
          simp [postsBearing, List.filter_append, hbear]
        have hstep : stepPost k (ps.foldl (stepPost k) none) p
            = ps.foldl (stepPost k) none := by
          simp [stepPost, h0]
        rw [hfold, hstep, hpb]
        exact ⟨ih1, ih2⟩
      · have h1 : tagOcc k p.hashtags = 1 := by omega
        have hbear : bearsTag k p = true := by
          by_contra hb
          have hb' : bearsTag k p = false := by
            cases hcb : bearsTag k p
            · rfl
            · exact absurd hcb hb
          have := (tagOcc_zero_iff k p.hashtags).mpr (by simpa [bearsTag] using hb')
          omega
        have hpb : postsBearing k (ps ++ [p]) = postsBearing k ps ++ [p] := by
          simp [postsBearing, List.filter_append, hbear]
        have hstep : stepPost k (ps.foldl (stepPost k) none) p
            = bumpTag (jsOrNat p.likes_count) (jsOrNat p.comments_count) p.timestamp
                (ps.foldl (stepPost k) none) := by
          simp [stepPost, h1]
        rw [hfold, hstep, hpb]
        cases hacc : ps.foldl (stepPost k) none with
        | none =>
            have hips : postsBearing k ps = [] := ih1 hacc
            refine ⟨by simp [bumpTag], ?_⟩
            intro s hs
            simp only [bumpTag, Option.some_inj] at hs
            subst hs
            simp [hips]
        | some s0 =>
            obtain ⟨hc, hl, hcm, hfm, hfb, hlm, hlb⟩ := ih2 s0 hacc
            refine ⟨by simp [bumpTag], ?_⟩
            intro s hs
            simp only [bumpTag, Option.some_inj] at hs
            subst hs
            refine ⟨?_, ?_, ?_, ?_, ?_, ?_, ?_⟩
            · simp [hc]
            · simp [hl, List.sum_append]
            · simp [hcm, List.sum_append]
            · by_cases hd : p.timestamp < s0.firstUsed
              · simp [hd]
              · simp only [if_neg hd, List.map_append, List.map_cons, List.map_nil]
                exact List.mem_append_left _ hfm
            · intro t ht
              simp only [List.map_append, List.map_cons, List.map_nil] at ht
              rcases List.mem_append.mp ht with htl | htr
              · have := hfb t htl
                by_cases hd : p.timestamp < s0.firstUsed <;> simp [hd] <;> omega
              · have htp : t = p.timestamp := by simpa using htr
                subst htp
                by_cases hd : p.timestamp < s0.firstUsed <;> simp [hd] <;> omega
            · by_cases hd : p.timestamp > s0.lastUsed
              · simp [hd]
              · simp only [if_neg hd, List.map_append, List.map_cons, List.map_nil]
                exact List.mem_append_left _ hlm
            · intro t ht
              simp only [List.map_append, List.map_cons, List.map_nil] at ht
              rcases List.mem_append.mp ht with htl | htr
              · have := hlb t htl
                by_cases hd : p.timestamp > s0.lastUsed <;> simp [hd] <;> omega
              · have htp : t = p.timestamp := by simpa using htr
                subst htp
                by_cases hd : p.timestamp > s0.lastUsed <;> simp [hd] <;> omega

def wMediaC8a : MediaRow :=
  { likes_count := some 10, comments_count := some 2,
    hashtags := extractHashtags "Great day #sun #fun", timestamp := 100 }

def wMediaC8b : MediaRow :=
  { likes_count := some 5, comments_count := some 1,
    hashtags := extractHashtags "#sun again", timestamp := 200 }

def wMediaC8 : List MediaRow := [wMediaC8a, wMediaC8b]

def wSunRow : HashtagMetricRow :=
  { hashtag := "#sun", usage_count := 2, total_engagement := 18, avg_engagement := 9,
    first_used := 100, last_used := 200 }

def wFunRow : HashtagMetricRow :=
  { hashtag := "#fun", usage_count := 1, total_engagement := 12, avg_engagement := 12,
    first_used := 100, last_used := 100 }

/--
C8 (amended): a deriveMetrics run that produces at least one hashtag stat
replaces the account's hashtag rows wholesale with the fresh set; a run on
no media or no hashtags leaves the old rows in place, and a caption that
repeats a tag is counted per occurrence rather than per item (both shown
by the counterexample).  Per tag, for items without a repeated tag in one
caption, usage_count counts the items bearing the tag, total_engagement
sums their likes+comments, avg_engagement = total_engagement /
usage_count, and first_used/last_used are the min/max timestamps of those
items; on the captions "Great day #sun #fun" (10 likes, 2 comments) and
"#sun again" (5 likes, 1 comment), tag sun gets usage 2, engagement 18,
average 9 and tag fun gets usage 1, engagement 12.
-/
theorem hashtag_metrics_recompute :
    (∀ (old : List HashtagMetricRow) (media : List MediaRow),
      media ≠ [] → hashtagMetrics media ≠ [] →
      newHashtagTable old media = hashtagMetrics media)
    ∧ (∀ (media : List MediaRow) (k : String),
      (∀ p ∈ media, tagOcc k p.hashtags ≤ 1) →
      ∀ s, mapGet (hashtagStats media) k = some s →
        s.count = (postsBearing k media).length
        ∧ s.totalLikes + s.totalComments
            = ((postsBearing k media).map
                (fun p => jsOrNat p.likes_count + jsOrNat p.comments_count)).sum
        ∧ s.firstUsed ∈ (postsBearing k media).map MediaRow.timestamp
        ∧ (∀ t ∈ (postsBearing k media).map MediaRow.timestamp, s.firstUsed ≤ t)
        ∧ s.lastUsed ∈ (postsBearing k media).map MediaRow.timestamp
        ∧ (∀ t ∈ (postsBearing k media).map MediaRow.timestamp, t ≤ s.lastUsed))
    ∧ (∀ media : List MediaRow, ∀ row ∈ hashtagMetrics media,
        row.avg_engagement = (row.total_engagement : ℚ) / (row.usage_count : ℚ))
    ∧ hashtagMetrics wMediaC8 = [wSunRow, wFunRow] := by
  refine ⟨?_, ?_, ?_, ?_⟩
  · intro old media hm hh
    have hm' : 0 < media.length := List.length_pos.mpr hm
    have hh' : 0 < (hashtagMetrics media).length := List.length_pos.mpr hh
    simp [newHashtagTable, hm', hh']
  · intro media k hocc s hs
    rw [mapGet_hashtagStats] at hs
    obtain ⟨hc, hl, hcm, hfm, hfb, hlm, hlb⟩ := (stats_fold_spec k media hocc).2 s hs
    refine ⟨hc, ?_, hfm, hfb, hlm, hlb⟩
    rw [hl, hcm, sum_map_add]
  · intro media row hrow
    obtain ⟨p, _, hp⟩ := List.mem_map.mp hrow
    subst hp
    rfl
  · have hstats : hashtagStats wMediaC8
        = [("#sun", { count := 2, totalLikes := 15, totalComments := 3,
                      firstUsed := 100, lastUsed := 200 }),
           ("#fun", { count := 1, totalLikes := 10, totalComments := 2,
                      firstUsed := 100, lastUsed := 100 })] := by
      decide
    rw [hashtagMetrics, hstats]
    simp only [List.map_cons, List.map_nil, mkMetricRow, wSunRow, wFunRow]
    norm_num

/- A media row whose caption repeats a tag: hashtags = ["sun", "sun"]. -/
def wDupPost : MediaRow :=
  { likes_count := some 10, comments_count := some 2,
    hashtags := extractHashtags "#sun wow #sun", timestamp := 100 }

/--
C8 as stated fails in two ways: (1) a run that yields no hashtag stats
issues no delete — with one existing row and an empty media set the old
row survives, while the claimed per-run delete-all-then-insert would
leave the fresh (empty) set; (2) on the single content item with caption
"#sun wow #sun" (10 likes, 2 comments) the computed usage_count for sun
is 2 — the number of tag occurrences, with engagement double-counted to
24 — while the claim's "number of content items bearing the tag" is 1.
-/
theorem hashtag_metrics_counterexample :
    (newHashtagTable
        [{ hashtag := "#old", usage_count := 1, total_engagement := 1,
           avg_engagement := 1, first_used := 0, last_used := 0 }] []
      ≠ hashtagMetrics ([] : List MediaRow))
    ∧ mapGet (hashtagStats [wDupPost]) "#sun"
        = some { count := 2, totalLikes := 20, totalComments := 4,
                 firstUsed := 100, lastUsed := 100 }
    ∧ (postsBearing "#sun" [wDupPost]).length = 1 := by
  refine ⟨?_, by decide, by decide⟩
  simp [newHashtagTable, hashtagMetrics, hashtagStats]

theorem hashtag_metrics_recompute_witness :
    ((⟨2, 15, 3, 100, 200⟩ : TagStat).count = (postsBearing "#sun" wMediaC8).length) :=
  (hashtag_metrics_recompute.2.1 wMediaC8 "#sun" (by decide)
    ⟨2, 15, 3, 100, 200⟩ (by decide)).1

/-
Section 9: SupabaseService.syncFollowers (src/unnamed/part_000 lines
215-443): the pure diff/merge computation over the previously persisted
follower rows (the `currentFollowers` select) and the freshly scraped
follower/following lists.  JS `new Set(array)` keeps first occurrences in
insertion order (jsSetList); the allUsersMap Map updates entries in place
and appends new keys at the end (mapSet).  The DB writes are modelled as
the returned record/event/snapshot data.
-/

def hasId (l : List String) (x : String) : Bool := l.any (fun y => decide (y = x))

def jsSetListAux : List String → List String → List String
  | _, [] => []
  | seen, x :: xs =>
      if hasId seen x then jsSetListAux seen xs else x :: jsSetListAux (x :: seen) xs

def jsSetList (l : List String) : List String := jsSetListAux [] l

theorem hasId_iff (l : List String) (x : String) : hasId l x = true ↔ x ∈ l := by
  simp [hasId, List.any_eq_true]

theorem mem_jsSetListAux (l : List String) :
    ∀ (seen : List String) (x : String), x ∈ jsSetListAux seen l ↔ x ∈ l ∧ x ∉ seen := by
  induction l with
  | nil => intro seen x; simp [jsSetListAux]
  | cons y ys ih =>
      intro seen x
      by_cases hy : hasId seen y = true
      · have hymem : y ∈ seen := (hasId_iff seen y).mp hy
        rw [jsSetListAux, if_pos hy, ih]
        constructor
        · rintro ⟨hx, hns⟩
          exact ⟨List.mem_cons_of_mem _ hx, hns⟩
        · rintro ⟨hx, hns⟩
          rcases List.mem_cons.mp hx with hxy | hx'
          · exact absurd (hxy ▸ hymem) hns
          · exact ⟨hx', hns⟩
      · have hynmem : y ∉ seen := fun hc => hy ((hasId_iff seen y).mpr hc)
        rw [jsSetListAux, if_neg hy]
        constructor
        · intro hx
          rcases List.mem_cons.mp hx with hxy | hx'
          · subst hxy
            exact ⟨List.mem_cons_self _ _, hynmem⟩
          · obtain ⟨hx2, hns⟩ := (ih (y :: seen) x).mp hx'
            have hxny : x ∉ seen := fun hc => hns (List.mem_cons_of_mem _ hc)
            exact ⟨List.mem_cons_of_mem _ hx2, hxny⟩
        · rintro ⟨hx, hns⟩
          by_cases hxy : x = y
          · subst hxy
            exact List.mem_cons_self _ _
          · rcases List.mem_cons.mp hx with h1 | h2
            · exact absurd h1 hxy
            · refine List.mem_cons_of_mem _ ((ih (y :: seen) x).mpr ⟨h2, ?_⟩)
              intro hc
              rcases List.mem_cons.mp hc with h3 | h4
              · exact hxy h3
              · exact hns h4

theorem mem_jsSetList (l : List String) (x : String) : x ∈ jsSetList l ↔ x ∈ l := by
  simp [jsSetList, mem_jsSetListAux]

theorem nodup_jsSetListAux (l : List String) :
    ∀ seen : List String, (jsSetListAux seen l).Nodup := by
  induction l with
  | nil => intro seen; simp [jsSetListAux]
  | cons y ys ih =>
      intro seen
      by_cases hy : hasId seen y = true
      · rw [jsSetListAux, if_pos hy]; exact ih seen
      · rw [jsSetListAux, if_neg hy]
        refine List.nodup_cons.mpr ⟨?_, ih (y :: seen)⟩
        intro hc
        exact ((mem_jsSetListAux ys (y :: seen) y).mp hc).2 (List.mem_cons_self _ _)

theorem nodup_jsSetList (l : List String) : (jsSetList l).Nodup := nodup_jsSetListAux l []

inductive ChangeType where
  | NEW_FOLLOWER
  | UNFOLLOWED
  | STARTED_FOLLOWING
  | STOPPED_FOLLOWING
  deriving DecidableEq, Repr

structure ChangeEvent where
  follower_ig_id : String
  follower_username : String
  change_type : ChangeType
  deriving DecidableEq, Repr

/- A row of the `followers` table as fetched at the start of the sync. -/
structure PrevRecord where
  follower_ig_id : String
  follower_username : String
  is_follower : Bool
  is_following : Bool
  deriving DecidableEq, Repr

structure MergedUser where
  ig_id : String
  username : String
  full_name : Option String
  is_private : Bool
  is_verified : Bool
  profile_pic_url : Option String
  is_follower : Bool
  is_following : Bool
  is_following_back : Bool
  deriving DecidableEq, Repr

def mkFollowerEntry (followingIds : List String) (f : ScrapedUser) : MergedUser :=
  { ig_id := f.ig_id, username := f.username, full_name := f.full_name,
    is_private := f.is_private, is_verified := f.is_verified,
    profile_pic_url := f.profile_pic_url,
    is_follower := true,
    is_following := hasId followingIds f.ig_id,
    is_following_back := hasId followingIds f.ig_id }

def mkFollowingEntry (g : ScrapedUser) : MergedUser :=
  { ig_id := g.ig_id, username := g.username, full_name := g.full_name,
    is_private := g.is_private, is_verified := g.is_verified,
    profile_pic_url := g.profile_pic_url,
    is_follower := false,
    is_following := true,
    is_following_back := false }

def followersPass (followingIds : List String) (followersData : List ScrapedUser) :
    List (String × MergedUser) :=
  followersData.foldl (fun m f => mapSet m f.ig_id (mkFollowerEntry followingIds f)) []

def followingStep (m : List (String × MergedUser)) (g : ScrapedUser) :
    List (String × MergedUser) :=
  match mapGet m g.ig_id with
  | some existing =>
      mapSet m g.ig_id { existing with is_following := true, is_following_back := true }
  | none => mapSet m g.ig_id (mkFollowingEntry g)

def newFollowerIds (followersData : List ScrapedUser) : List String :=
  jsSetList (followersData.map ScrapedUser.ig_id)

def newFollowingIds (followingData : List ScrapedUser) : List String :=
  jsSetList (followingData.map ScrapedUser.ig_id)

def allUsersMap (followersData followingData : List ScrapedUser) :
    List (String × MergedUser) :=
  followingData.foldl followingStep
    (followersPass (newFollowingIds followingData) followersData)

def mergedRecords (followersData followingData : List ScrapedUser) : List MergedUser :=
  (allUsersMap followersData followingData).map Prod.snd

def currentFollowerIds (prev : List PrevRecord) : List String :=
  jsSetList ((prev.filter (fun r => r.is_follower)).map PrevRecord.follower_ig_id)

def currentFollowingIds (prev : List PrevRecord) : List String :=
  jsSetList ((prev.filter (fun r => r.is_following)).map PrevRecord.follower_ig_id)

def newFollowersList (prev : List PrevRecord) (followersData : List ScrapedUser) : List String :=
  (newFollowerIds followersData).filter (fun id => !(hasId (currentFollowerIds prev) id))

def lostFollowersList (prev : List PrevRecord) (followersData : List ScrapedUser) : List String :=
  (currentFollowerIds prev).filter (fun id => !(hasId (newFollowerIds followersData) id))

def newFollowingList (prev : List PrevRecord) (followingData : List ScrapedUser) : List String :=
  (newFollowingIds followingData).filter (fun id => !(hasId (currentFollowingIds prev) id))

def stoppedFollowingList (prev : List PrevRecord) (followingData : List ScrapedUser) : List String :=
  (currentFollowingIds prev).filter (fun id => !(hasId (newFollowingIds followingData) id))

/- existing.follower_username || igId -/
def jsOrEmpty (s fallback : String) : String := if s = "" then fallback else s

def newFollowerEvents (prev : List PrevRecord) (fd gd : List ScrapedUser) : List ChangeEvent :=
  (newFollowersList prev fd).filterMap (fun igId =>
    (mapGet (allUsersMap fd gd) igId).map (fun u =>
      { follower_ig_id := igId, follower_username := u.username,
        change_type := ChangeType.NEW_FOLLOWER }))

def unfollowedEvents (prev : List PrevRecord) (fd : List ScrapedUser) : List ChangeEvent :=
  (lostFollowersList prev fd).filterMap (fun igId =>
    (prev.find? (fun f => decide (f.follower_ig_id = igId))).map (fun ex =>
      { follower_ig_id := igId, follower_username := jsOrEmpty ex.follower_username igId,
        change_type := ChangeType.UNFOLLOWED }))

def startedFollowingEvents (prev : List PrevRecord) (fd gd : List ScrapedUser) :
    List ChangeEvent :=
  (newFollowingList prev gd).filterMap (fun igId =>
    (mapGet (allUsersMap fd gd) igId).map (fun u =>
      { follower_ig_id := igId, follower_username := u.username,
        change_type := ChangeType.STARTED_FOLLOWING }))

def stoppedFollowingEvents (prev : List PrevRecord) (gd : List ScrapedUser) :
    List ChangeEvent :=
  (stoppedFollowingList prev gd).filterMap (fun igId =>
    (prev.find? (fun f => decide (f.follower_ig_id = igId))).map (fun ex =>
      { follower_ig_id := igId, follower_username := jsOrEmpty ex.follower_username igId,
        change_type := ChangeType.STOPPED_FOLLOWING }))

def changeEvents (prev : List PrevRecord) (fd gd : List ScrapedUser) : List ChangeEvent :=
  newFollowerEvents prev fd gd ++ unfollowedEvents prev fd
    ++ startedFollowingEvents prev fd gd ++ stoppedFollowingEvents prev gd

structure SnapshotCounters where
  total_followers : Nat
  total_following : Nat
  new_followers : Nat
  lost_followers : Nat
  non_followers : Nat
  follower_ids : List String
  following_ids : List String
  deriving DecidableEq, Repr

def snapshotCounters (prev : List PrevRecord) (fd gd : List ScrapedUser) : SnapshotCounters :=
  { total_followers := fd.length
    total_following := gd.length
    new_followers := (newFollowersList prev fd).length
    lost_followers := (lostFollowersList prev fd).length
    non_followers :=
      ((mergedRecords fd gd).filter (fun u => u.is_following && !u.is_follower)).length
    follower_ids := newFollowerIds fd
    following_ids := newFollowingIds gd }

theorem followersPass_entries (ids : List String) (fd : List ScrapedUser) :
    ∀ p ∈ followersPass ids fd,
      ∃ f ∈ fd, f.ig_id = p.1 ∧ p.2 = mkFollowerEntry ids f := by
  have haux : ∀ (l : List ScrapedUser) (m : List (String × MergedUser)),
      (∀ p ∈ m, ∃ f ∈ fd, f.ig_id = p.1 ∧ p.2 = mkFollowerEntry ids f) →
      (∀ f ∈ l, f ∈ fd) →
      ∀ p ∈ l.foldl (fun m f => mapSet m f.ig_id (mkFollowerEntry ids f)) m,
        ∃ f ∈ fd, f.ig_id = p.1 ∧ p.2 = mkFollowerEntry ids f := by
    intro l
    induction l with
    | nil => intro m hm _ p hp; exact hm p hp
    | cons f fs ih =>
        intro m hm hsub p hp
        refine ih _ ?_ (fun q hq => hsub q (List.mem_cons_of_mem _ hq)) p hp
        intro q hq
        rcases mapSet_entry_sub m f.ig_id (mkFollowerEntry ids f) q hq with hq1 | hq2
        · exact ⟨f, hsub f (List.mem_cons_self _ _), by simp [hq1], by simp [hq1]⟩
        · exact hm q hq2
  intro p hp
  exact haux fd [] (by simp) (fun f hf => hf) p hp

theorem mapGet_followingStep_ne_none (m : List (String × MergedUser)) (g : ScrapedUser)
    (k : String) :
    mapGet (followingStep m g) k ≠ none ↔ (k = g.ig_id ∨ mapGet m k ≠ none) := by
  cases hget : mapGet m g.ig_id with
  | some e =>
      by_cases hk : k = g.ig_id
      · simp [followingStep, hget, mapGet_mapSet, hk]
      · simp [followingStep, hget, mapGet_mapSet, hk]
  | none =>
      by_cases hk : k = g.ig_id
      · simp [followingStep, hget, mapGet_mapSet, hk]
      · simp [followingStep, hget, mapGet_mapSet, hk]

theorem mapGet_followersPass_ne_none (ids : List String) (fd : List ScrapedUser) (k : String) :
    mapGet (followersPass ids fd) k ≠ none ↔ k ∈ fd.map ScrapedUser.ig_id := by
  suffices h : ∀ (l : List ScrapedUser) (m : List (String × MergedUser)),
      mapGet (l.foldl (fun m f => mapSet m f.ig_id (mkFollowerEntry ids f)) m) k ≠ none
        ↔ (mapGet m k ≠ none ∨ k ∈ l.map ScrapedUser.ig_id) by
    rw [followersPass, h fd []]
    simp [mapGet]
  intro l
  induction l with
  | nil => intro m; simp
  | cons f fs ih =>
      intro m
      rw [List.foldl_cons, ih]
      by_cases hk : k = f.ig_id
      · simp [mapGet_mapSet, hk]
      · simp [mapGet_mapSet, hk]
      
theorem mapGet_allUsersMap_ne_none (fd gd : List ScrapedUser) (k : String) :
    mapGet (allUsersMap fd gd) k ≠ none
      ↔ (k ∈ fd.map ScrapedUser.ig_id ∨ k ∈ gd.map ScrapedUser.ig_id) := by
  suffices h : ∀ (l : List ScrapedUser) (m : List (String × MergedUser)),
      mapGet (l.foldl followingStep m) k ≠ none
        ↔ (mapGet m k ≠ none ∨ k ∈ l.map ScrapedUser.ig_id) by
    rw [allUsersMap, h gd _, mapGet_followersPass_ne_none]
  intro l
  induction l with
  | nil => intro m; simp
  | cons g gs ih =>
      intro m
      rw [List.foldl_cons, ih, mapGet_followingStep_ne_none]
      simp only [List.map_cons, List.mem_cons]
      tauto

theorem followingFold_invariant (gd : List ScrapedUser) :
    ∀ m : List (String × MergedUser),
      (∀ p ∈ m, p.2.is_following_back = (p.2.is_follower && p.2.is_following)) →
      (∀ p ∈ m, p.2.is_follower = true ∨ p.1 ∉ gd.map ScrapedUser.ig_id) →
      (gd.map ScrapedUser.ig_id).Nodup →
      ∀ p ∈ gd.foldl followingStep m,
        p.2.is_following_back = (p.2.is_follower && p.2.is_following) := by
  induction gd with
  | nil => intro m ha _ _ p hp; exact ha p hp
  | cons g gs ih =>
      intro m ha hb hnd p hp
      have hnd' : (gs.map ScrapedUser.ig_id).Nodup := (List.nodup_cons.mp hnd).2
      have hgn : g.ig_id ∉ gs.map ScrapedUser.ig_id := (List.nodup_cons.mp hnd).1
      rw [List.foldl_cons] at hp
      refine ih (followingStep m g) ?_ ?_ hnd' p hp
      · intro q hq
        cases hget : mapGet m g.ig_id with
        | some e =>
            have hmem : (g.ig_id, e) ∈ m := mapGet_mem m g.ig_id e hget
            have hef : e.is_follower = true := by
              rcases hb (g.ig_id, e) hmem with h1 | h2
              · exact h1
              · exact absurd (by simp) h2
            rw [followingStep, hget] at hq
            rcases mapSet_entry_sub _ _ _ q hq with hq1 | hq2
            · rw [hq1]
              simp [hef]
            · exact ha q hq2
        | none =>
            rw [followingStep, hget] at hq
            rcases mapSet_entry_sub _ _ _ q hq with hq1 | hq2
            · rw [hq1]
              simp [mkFollowingEntry]
            · exact ha q hq2
      · intro q hq
        cases hget : mapGet m g.ig_id with
        | some e =>
            rw [followingStep, hget] at hq
            rcases mapSet_entry_sub _ _ _ q hq with hq1 | hq2
            · left
              rw [hq1]
              have hmem : (g.ig_id, e) ∈ m := mapGet_mem m g.ig_id e hget
              rcases hb (g.ig_id, e) hmem with h1 | h2
              · simpa using h1
              · exact absurd (by simp) h2
            · rcases hb q hq2 with h1 | h2
              · exact Or.inl h1
              · exact Or.inr (fun hc => h2 (List.mem_cons_of_mem _ hc))
        | none =>
            rw [followingStep, hget] at hq
            rcases mapSet_entry_sub _ _ _ q hq with hq1 | hq2
            · right
              rw [hq1]
              exact hgn
            · rcases hb q hq2 with h1 | h2
              · exact Or.inl h1
              · exact Or.inr (fun hc => h2 (List.mem_cons_of_mem _ hc))

theorem followingFold_preserve (gd : List ScrapedUser) :
    ∀ (m : List (String × MergedUser)) (k : String) (u : MergedUser),
      mapGet m k = some u → u.is_follower = true → u.is_following = true →
      u.is_following_back = true →
      ∃ u', mapGet (gd.foldl followingStep m) k = some u'
        ∧ u'.is_follower = true ∧ u'.is_following = true ∧ u'.is_following_back = true := by
  induction gd with
  | nil => intro m k u hget h1 h2 h3; exact ⟨u, hget, h1, h2, h3⟩
  | cons g gs ih =>
      intro m k u hget h1 h2 h3
      rw [List.foldl_cons]
      by_cases hk : k = g.ig_id
      · subst hk
        rw [followingStep, hget]
        refine ih _ g.ig_id { u with is_following := true, is_following_back := true } ?_ h1 rfl rfl
        simp [mapGet_mapSet]
      · cases hgg : mapGet m g.ig_id with
        | some e =>
            refine ih _ k u ?_ h1 h2 h3
            rw [followingStep, hgg, mapGet_mapSet, if_neg hk]
            exact hget
        | none =>
            refine ih _ k u ?_ h1 h2 h3
            rw [followingStep, hgg, mapGet_mapSet, if_neg hk]
            exact hget

theorem mapGet_followersPass_mem (ids : List String) (fd : List ScrapedUser) (k : String)
    (hk : k ∈ fd.map ScrapedUser.ig_id) :
    ∃ e, mapGet (followersPass ids fd) k = some e
      ∧ e.is_follower = true ∧ e.is_following = hasId ids k
      ∧ e.is_following_back = hasId ids k := by
  have hne : mapGet (followersPass ids fd) k ≠ none :=
    (mapGet_followersPass_ne_none ids fd k).mpr hk
  cases hget : mapGet (followersPass ids fd) k with
  | none => exact absurd hget hne
  | some e =>
      obtain ⟨f, _, hfid, hfe⟩ :=
        followersPass_entries ids fd (k, e) (mapGet_mem _ _ _ hget)
      have hfid' : f.ig_id = k := hfid
      have hfe' : e = mkFollowerEntry ids f := hfe
      refine ⟨e, rfl, ?_, ?_, ?_⟩ <;> rw [hfe'] <;> simp [mkFollowerEntry, hfid']

/--
C4 as stated fails: a following list that repeats an id absent from the
followers list makes the second pass set is_following_back on the record
inserted by its first occurrence, leaving a merged record with
is_following_back = true while is_follower = false.
-/
theorem merged_flags_counterexample :
    ¬ (∀ u ∈ mergedRecords []
          [{ ig_id := "x", username := "x", full_name := none, is_private := false,
             is_verified := false, profile_pic_url := none },
           { ig_id := "x", username := "x", full_name := none, is_private := false,
             is_verified := false, profile_pic_url := none }],
        u.is_following_back = (u.is_follower && u.is_following)) := by
  decide

/--
C4 (amended): provided the following list carries pairwise-distinct ids
(the shape actual scraped data has), every merged record satisfies
is_following_back = is_follower AND is_following, and an id present in
both current lists gets all three flags true; in particular no record has
is_following_back true with is_follower or is_following false.
-/
theorem merged_flags_invariant (fd gd : List ScrapedUser)
    (hnodup : (gd.map ScrapedUser.ig_id).Nodup) :
    (∀ u ∈ mergedRecords fd gd,
      u.is_following_back = (u.is_follower && u.is_following))
    ∧ (∀ id, id ∈ fd.map ScrapedUser.ig_id → id ∈ gd.map ScrapedUser.ig_id →
        ∃ u, mapGet (allUsersMap fd gd) id = some u
          ∧ u.is_follower = true ∧ u.is_following = true ∧ u.is_following_back = true) := by
  constructor
  · intro u hu
    obtain ⟨p, hp, hpu⟩ := List.mem_map.mp hu
    subst hpu
    refine followingFold_invariant gd _ ?_ ?_ hnodup p hp
    · intro q hq
      obtain ⟨f, _, hfid, hfe⟩ := followersPass_entries _ fd q hq
      rw [hfe]
      simp [mkFollowerEntry]
    · intro q hq
      obtain ⟨f, _, hfid, hfe⟩ := followersPass_entries _ fd q hq
      left
      rw [hfe]
      rfl
  · intro id hidf hidg
    have hhas : hasId (newFollowingIds gd) id = true :=
      (hasId_iff _ _).mpr ((mem_jsSetList _ _).mpr hidg)
    obtain ⟨e, hget, he1, he2, he3⟩ :=
      mapGet_followersPass_mem (newFollowingIds gd) fd id hidf
    rw [hhas] at he2 he3
    exact followingFold_preserve gd _ id e hget he1 he2 he3

def wUserA : ScrapedUser :=
  { ig_id := "a", username := "a", full_name := none, is_private := false,
    is_verified := false, profile_pic_url := none }

def wUserB : ScrapedUser :=
  { ig_id := "b", username := "b", full_name := none, is_private := false,
    is_verified := false, profile_pic_url := none }

theorem merged_flags_invariant_witness :
    ∃ u, mapGet (allUsersMap [wUserA] [wUserA, wUserB]) "a" = some u
      ∧ u.is_follower = true ∧ u.is_following = true ∧ u.is_following_back = true :=
  (merged_flags_invariant [wUserA] [wUserA, wUserB] (by decide)).2 "a"
    (by decide) (by decide)

theorem hasId_eq_false (l : List String) (x : String) : hasId l x = false ↔ x ∉ l := by
  constructor
  · intro h hc
    rw [(hasId_iff l x).mpr hc] at h
    simp at h
  · intro h
    cases hh : hasId l x
    · rfl
    · exact absurd ((hasId_iff l x).mp hh) h

theorem filterMap_lookup_ids {β : Type} (lookup : String → Option β)
    (mkEv : String → β → ChangeEvent)
    (hmk : ∀ id u, (mkEv id u).follower_ig_id = id) :
    ∀ l : List String, (∀ id ∈ l, lookup id ≠ none) →
      ((l.filterMap (fun igId => (lookup igId).map (mkEv igId))).map
          ChangeEvent.follower_ig_id) = l := by
  intro l
  induction l with
  | nil => intro _; rfl
  | cons x xs ih =>
      intro hl
      have hx : lookup x ≠ none := hl x (List.mem_cons_self _ _)
      cases hlx : lookup x with
      | none => exact absurd hlx hx
      | some u =>
          have hrest := ih (fun id hid => hl id (List.mem_cons_of_mem _ hid))
          simp [List.filterMap_cons, hlx, hmk, hrest]

theorem filterMap_lookup_type {β : Type} (lookup : String → Option β)
    (mkEv : String → β → ChangeEvent) (t : ChangeType)
    (hmk : ∀ id u, (mkEv id u).change_type = t) (l : List String) :
    ∀ e ∈ l.filterMap (fun igId => (lookup igId).map (mkEv igId)), e.change_type = t := by
  intro e he
  obtain ⟨a, _, ha⟩ := List.mem_filterMap.mp he
  cases hm : lookup a with
  | none => rw [hm] at ha; simp at ha
  | some u =>
      rw [hm] at ha
      have : mkEv a u = e := by simpa using ha
      rw [← this]
      exact hmk a u

theorem mem_newFollowersList_ids (prev : List PrevRecord) (fd : List ScrapedUser)
    (id : String) (hid : id ∈ newFollowersList prev fd) : id ∈ fd.map ScrapedUser.ig_id :=
  (mem_jsSetList _ _).mp (List.mem_filter.mp hid).1

theorem mem_newFollowingList_ids (prev : List PrevRecord) (gd : List ScrapedUser)
    (id : String) (hid : id ∈ newFollowingList prev gd) : id ∈ gd.map ScrapedUser.ig_id :=
  (mem_jsSetList _ _).mp (List.mem_filter.mp hid).1

theorem find?_prev_ne_none (prev : List PrevRecord) (id : String)
    (h : ∃ r ∈ prev, r.follower_ig_id = id) :
    prev.find? (fun f => decide (f.follower_ig_id = id)) ≠ none := by
  intro hnone
  obtain ⟨r, hr, hrid⟩ := h
  rw [List.find?_eq_none] at hnone
  exact hnone r hr (by simp [hrid])

theorem mem_lostFollowersList_prev (prev : List PrevRecord) (fd : List ScrapedUser)
    (id : String) (hid : id ∈ lostFollowersList prev fd) :
    ∃ r ∈ prev, r.follower_ig_id = id := by
  have h1 : id ∈ currentFollowerIds prev := (List.mem_filter.mp hid).1
  have h2 := (mem_jsSetList _ _).mp h1
  obtain ⟨r, hr, hrid⟩ := List.mem_map.mp h2
  exact ⟨r, (List.mem_filter.mp hr).1, hrid⟩

theorem mem_stoppedFollowingList_prev (prev : List PrevRecord) (gd : List ScrapedUser)
    (id : String) (hid : id ∈ stoppedFollowingList prev gd) :
    ∃ r ∈ prev, r.follower_ig_id = id := by
  have h1 : id ∈ currentFollowingIds prev := (List.mem_filter.mp hid).1
  have h2 := (mem_jsSetList _ _).mp h1
  obtain ⟨r, hr, hrid⟩ := List.mem_map.mp h2
  exact ⟨r, (List.mem_filter.mp hr).1, hrid⟩

theorem map_ids_newFollowerEvents (prev : List PrevRecord) (fd gd : List ScrapedUser) :
    (newFollowerEvents prev fd gd).map ChangeEvent.follower_ig_id
      = newFollowersList prev fd := by
  exact filterMap_lookup_ids (fun igId => mapGet (allUsersMap fd gd) igId)
    (fun igId u => { follower_ig_id := igId, follower_username := u.username,
                     change_type := ChangeType.NEW_FOLLOWER })
    (fun _ _ => rfl) (newFollowersList prev fd)
    (fun id hid => (mapGet_allUsersMap_ne_none fd gd id).mpr
      (Or.inl (mem_newFollowersList_ids prev fd id hid)))

theorem map_ids_unfollowedEvents (prev : List PrevRecord) (fd : List ScrapedUser) :
    (unfollowedEvents prev fd).map ChangeEvent.follower_ig_id
      = lostFollowersList prev fd := by
  exact filterMap_lookup_ids
    (fun igId => prev.find? (fun f => decide (f.follower_ig_id = igId)))
    (fun igId ex => { follower_ig_id := igId,
                      follower_username := jsOrEmpty ex.follower_username igId,
                      change_type := ChangeType.UNFOLLOWED })
    (fun _ _ => rfl) (lostFollowersList prev fd)
    (fun id hid => find?_prev_ne_none prev id (mem_lostFollowersList_prev prev fd id hid))

theorem map_ids_startedFollowingEvents (prev : List PrevRecord) (fd gd : List ScrapedUser) :
    (startedFollowingEvents prev fd gd).map ChangeEvent.follower_ig_id
      = newFollowingList prev gd := by
  exact filterMap_lookup_ids (fun igId => mapGet (allUsersMap fd gd) igId)
    (fun igId u => { follower_ig_id := igId, follower_username := u.username,
                     change_type := ChangeType.STARTED_FOLLOWING })
    (fun _ _ => rfl) (newFollowingList prev gd)
    (fun id hid => (mapGet_allUsersMap_ne_none fd gd id).mpr
      (Or.inr (mem_newFollowingList_ids prev gd id hid)))

theorem map_ids_stoppedFollowingEvents (prev : List PrevRecord) (gd : List ScrapedUser) :
    (stoppedFollowingEvents prev gd).map ChangeEvent.follower_ig_id
      = stoppedFollowingList prev gd := by
  exact filterMap_lookup_ids
    (fun igId => prev.find? (fun f => decide (f.follower_ig_id = igId)))
    (fun igId ex => { follower_ig_id := igId,
                      follower_username := jsOrEmpty ex.follower_username igId,
                      change_type := ChangeType.STOPPED_FOLLOWING })
    (fun _ _ => rfl) (stoppedFollowingList prev gd)
    (fun id hid => find?_prev_ne_none prev id (mem_stoppedFollowingList_prev prev gd id hid))

theorem type_newFollowerEvents (prev : List PrevRecord) (fd gd : List ScrapedUser) :
    ∀ e ∈ newFollowerEvents prev fd gd, e.change_type = ChangeType.NEW_FOLLOWER :=
  filterMap_lookup_type (fun igId => mapGet (allUsersMap fd gd) igId)
    (fun igId u => { follower_ig_id := igId, follower_username := u.username,
                     change_type := ChangeType.NEW_FOLLOWER })
    ChangeType.NEW_FOLLOWER (fun _ _ => rfl) (newFollowersList prev fd)

theorem type_unfollowedEvents (prev : List PrevRecord) (fd : List ScrapedUser) :
    ∀ e ∈ unfollowedEvents prev fd, e.change_type = ChangeType.UNFOLLOWED :=
  filterMap_lookup_type (β := PrevRecord)
    (fun igId => prev.find? (fun f => decide (f.follower_ig_id = igId)))
    (fun igId ex => { follower_ig_id := igId,
                      follower_username := jsOrEmpty ex.follower_username igId,
                      change_type := ChangeType.UNFOLLOWED })
    ChangeType.UNFOLLOWED (fun _ _ => rfl) (lostFollowersList prev fd)

theorem type_startedFollowingEvents (prev : List PrevRecord) (fd gd : List ScrapedUser) :
    ∀ e ∈ startedFollowingEvents prev fd gd, e.change_type = ChangeType.STARTED_FOLLOWING :=
  filterMap_lookup_type (fun igId => mapGet (allUsersMap fd gd) igId)
    (fun igId u => { follower_ig_id := igId, follower_username := u.username,
                     change_type := ChangeType.STARTED_FOLLOWING })
    ChangeType.STARTED_FOLLOWING (fun _ _ => rfl) (newFollowingList prev gd)

theorem type_stoppedFollowingEvents (prev : List PrevRecord) (gd : List ScrapedUser) :
    ∀ e ∈ stoppedFollowingEvents prev gd, e.change_type = ChangeType.STOPPED_FOLLOWING :=
  filterMap_lookup_type (β := PrevRecord)
    (fun igId => prev.find? (fun f => decide (f.follower_ig_id = igId)))
    (fun igId ex => { follower_ig_id := igId,
                      follower_username := jsOrEmpty ex.follower_username igId,
                      change_type := ChangeType.STOPPED_FOLLOWING })
    ChangeType.STOPPED_FOLLOWING (fun _ _ => rfl) (stoppedFollowingList prev gd)

theorem filter_of_all {α : Type} (p : α → Bool) (l : List α) (h : ∀ a ∈ l, p a = true) :
    l.filter p = l := by
  induction l with
  | nil => rfl
  | cons x xs ih =>
      have hx := h x (List.mem_cons_self _ _)
      simp [List.filter_cons, hx, ih (fun a ha => h a (List.mem_cons_of_mem _ ha))]

theorem filter_of_none {α : Type} (p : α → Bool) (l : List α) (h : ∀ a ∈ l, p a = false) :
    l.filter p = [] := by
  induction l with
  | nil => rfl
  | cons x xs ih =>
      have hx := h x (List.mem_cons_self _ _)
      simp [List.filter_cons, hx, ih (fun a ha => h a (List.mem_cons_of_mem _ ha))]

theorem changes_filter_new (prev : List PrevRecord) (fd gd : List ScrapedUser) :
    (changeEvents prev fd gd).filter
        (fun e => decide (e.change_type = ChangeType.NEW_FOLLOWER))
      = newFollowerEvents prev fd gd := by
  rw [changeEvents, List.filter_append, List.filter_append, List.filter_append]
  rw [filter_of_all _ _ (fun e he => by simp [type_newFollowerEvents prev fd gd e he]),
    filter_of_none _ _ (fun e he => by simp [type_unfollowedEvents prev fd e he]),
    filter_of_none _ _ (fun e he => by simp [type_startedFollowingEvents prev fd gd e he]),
    filter_of_none _ _ (fun e he => by simp [type_stoppedFollowingEvents prev gd e he])]
  simp

theorem changes_filter_unfollowed (prev : List PrevRecord) (fd gd : List ScrapedUser) :
    (changeEvents prev fd gd).filter
        (fun e => decide (e.change_type = ChangeType.UNFOLLOWED))
      = unfollowedEvents prev fd := by
  rw [changeEvents, List.filter_append, List.filter_append, List.filter_append]
  rw [filter_of_none _ _ (fun e he => by simp [type_newFollowerEvents prev fd gd e he]),
    filter_of_all _ _ (fun e he => by simp [type_unfollowedEvents prev fd e he]),
    filter_of_none _ _ (fun e he => by simp [type_startedFollowingEvents prev fd gd e he]),
    filter_of_none _ _ (fun e he => by simp [type_stoppedFollowingEvents prev gd e he])]
  simp

theorem changes_filter_started (prev : List PrevRecord) (fd gd : List ScrapedUser) :
    (changeEvents prev fd gd).filter
        (fun e => decide (e.change_type = ChangeType.STARTED_FOLLOWING))
      = startedFollowingEvents prev fd gd := by
  rw [changeEvents, List.filter_append, List.filter_append, List.filter_append]
  rw [filter_of_none _ _ (fun e he => by simp [type_newFollowerEvents prev fd gd e he]),
    filter_of_none _ _ (fun e he => by simp [type_unfollowedEvents prev fd e he]),
    filter_of_all _ _ (fun e he => by simp [type_startedFollowingEvents prev fd gd e he]),
    filter_of_none _ _ (fun e he => by simp [type_stoppedFollowingEvents prev gd e he])]
  simp

theorem changes_filter_stopped (prev : List PrevRecord) (fd gd : List ScrapedUser) :
    (changeEvents prev fd gd).filter
        (fun e => decide (e.change_type = ChangeType.STOPPED_FOLLOWING))
      = stoppedFollowingEvents prev gd := by
  rw [changeEvents, List.filter_append, List.filter_append, List.filter_append]
  rw [filter_of_none _ _ (fun e he => by simp [type_newFollowerEvents prev fd gd e he]),
    filter_of_none _ _ (fun e he => by simp [type_unfollowedEvents prev fd e he]),
    filter_of_none _ _ (fun e he => by simp [type_startedFollowingEvents prev fd gd e he]),
    filter_of_all _ _ (fun e he => by simp [type_stoppedFollowingEvents prev gd e he])]
  simp

theorem mem_prevIds (pred : PrevRecord → Bool) (prev : List PrevRecord) (id : String) :
    id ∈ jsSetList ((prev.filter pred).map PrevRecord.follower_ig_id)
      ↔ ∃ r ∈ prev, r.follower_ig_id = id ∧ pred r = true := by
  rw [mem_jsSetList]
  constructor
  · intro h
    obtain ⟨r, hr, hrid⟩ := List.mem_map.mp h
    obtain ⟨hr1, hr2⟩ := List.mem_filter.mp hr
    exact ⟨r, hr1, hrid, hr2⟩
  · rintro ⟨r, hr, hrid, hpred⟩
    exact List.mem_map.mpr ⟨r, List.mem_filter.mpr ⟨hr, hpred⟩, hrid⟩

def mkScrapedC3 (id : String) : ScrapedUser :=
  { ig_id := id, username := id, full_name := none, is_private := false,
    is_verified := false, profile_pic_url := none }

def mkPrevC3 (id : String) (f g : Bool) : PrevRecord :=
  { follower_ig_id := id, follower_username := id, is_follower := f, is_following := g }

/- Previous state: followers {A,B,C}, following {B,C,D}. -/
def wPrevC3 : List PrevRecord :=
  [mkPrevC3 "A" true false, mkPrevC3 "B" true true, mkPrevC3 "C" true true,
   mkPrevC3 "D" false true]

/- Current followers {B,C,E}, current following {B,D,F}. -/
def wFdC3 : List ScrapedUser := [mkScrapedC3 "B", mkScrapedC3 "C", mkScrapedC3 "E"]

def wGdC3 : List ScrapedUser := [mkScrapedC3 "B", mkScrapedC3 "D", mkScrapedC3 "F"]

/--
C3: the followers sync computes new_followers = current − previous and
lost_followers = previous − current on the follower sets, symmetrically
for following; emits exactly one change event per id per direction
(NEW_FOLLOWER/UNFOLLOWED from the followers diff, STARTED_FOLLOWING/
STOPPED_FOLLOWING from the following diff — an id in several categories
gets one event in each); counts non_followers as the merged records with
is_following and not is_follower; and on previous followers {A,B,C},
previous following {B,C,D}, current followers {B,C,E}, current following
{B,D,F} yields new {E}, lost {A}, new following {F}, stopped {C},
non-followers {D,F}.
-/
theorem sync_followers_diff (prev : List PrevRecord) (fd gd : List ScrapedUser) :
    (∀ id, id ∈ newFollowersList prev fd ↔
      (id ∈ fd.map ScrapedUser.ig_id
        ∧ ¬ ∃ r ∈ prev, r.follower_ig_id = id ∧ r.is_follower = true))
    ∧ (∀ id, id ∈ lostFollowersList prev fd ↔
      ((∃ r ∈ prev, r.follower_ig_id = id ∧ r.is_follower = true)
        ∧ id ∉ fd.map ScrapedUser.ig_id))
    ∧ (∀ id, id ∈ newFollowingList prev gd ↔
      (id ∈ gd.map ScrapedUser.ig_id
        ∧ ¬ ∃ r ∈ prev, r.follower_ig_id = id ∧ r.is_following = true))
    ∧ (∀ id, id ∈ stoppedFollowingList prev gd ↔
      ((∃ r ∈ prev, r.follower_ig_id = id ∧ r.is_following = true)
        ∧ id ∉ gd.map ScrapedUser.ig_id))
    ∧ ((changeEvents prev fd gd).filter
        (fun e => decide (e.change_type = ChangeType.NEW_FOLLOWER))).map
          ChangeEvent.follower_ig_id = newFollowersList prev fd
    ∧ ((changeEvents prev fd gd).filter
        (fun e => decide (e.change_type = ChangeType.UNFOLLOWED))).map
          ChangeEvent.follower_ig_id = lostFollowersList prev fd
    ∧ ((changeEvents prev fd gd).filter
        (fun e => decide (e.change_type = ChangeType.STARTED_FOLLOWING))).map
          ChangeEvent.follower_ig_id = newFollowingList prev gd
    ∧ ((changeEvents prev fd gd).filter
        (fun e => decide (e.change_type = ChangeType.STOPPED_FOLLOWING))).map
          ChangeEvent.follower_ig_id = stoppedFollowingList prev gd
    ∧ (newFollowersList prev fd).Nodup
    ∧ (lostFollowersList prev fd).Nodup
    ∧ (newFollowingList prev gd).Nodup
    ∧ (stoppedFollowingList prev gd).Nodup
    ∧ (snapshotCounters prev fd gd).non_followers
        = ((mergedRecords fd gd).filter (fun u => u.is_following && !u.is_follower)).length
    ∧ newFollowersList wPrevC3 wFdC3 = ["E"]
    ∧ lostFollowersList wPrevC3 wFdC3 = ["A"]
    ∧ newFollowingList wPrevC3 wGdC3 = ["F"]
    ∧ stoppedFollowingList wPrevC3 wGdC3 = ["C"]
    ∧ ((mergedRecords wFdC3 wGdC3).filter
        (fun u => u.is_following && !u.is_follower)).map MergedUser.ig_id = ["D", "F"]
    ∧ (snapshotCounters wPrevC3 wFdC3 wGdC3).non_followers = 2
    ∧ changeEvents wPrevC3 wFdC3 wGdC3 =
        [{ follower_ig_id := "E", follower_username := "E",
           change_type := ChangeType.NEW_FOLLOWER },
         { follower_ig_id := "A", follower_username := "A",
           change_type := ChangeType.UNFOLLOWED },
         { follower_ig_id := "F", follower_username := "F",
           change_type := ChangeType.STARTED_FOLLOWING },
         { follower_ig_id := "C", follower_username := "C",
           change_type := ChangeType.STOPPED_FOLLOWING }] := by
  refine ⟨?_, ?_, ?_, ?_, ?_, ?_, ?_, ?_, ?_, ?_, ?_, ?_, rfl,
    by decide, by decide, by decide, by decide, by decide, by decide, by decide⟩
  · intro id
    simp only [newFollowersList, List.mem_filter, Bool.not_eq_true', hasId_eq_false]
    constructor
    · rintro ⟨h1, h2⟩
      exact ⟨(mem_jsSetList _ _).mp h1, fun hc => h2 ((mem_prevIds _ prev id).mpr hc)⟩
    · rintro ⟨h1, h2⟩
      exact ⟨(mem_jsSetList _ _).mpr h1, fun hc => h2 ((mem_prevIds _ prev id).mp hc)⟩
  · intro id
    simp only [lostFollowersList, List.mem_filter, Bool.not_eq_true', hasId_eq_false]
    constructor
    · rintro ⟨h1, h2⟩
      exact ⟨(mem_prevIds _ prev id).mp h1, fun hc => h2 ((mem_jsSetList _ _).mpr hc)⟩
    · rintro ⟨h1, h2⟩
      exact ⟨(mem_prevIds _ prev id).mpr h1, fun hc => h2 ((mem_jsSetList _ _).mp hc)⟩
  · intro id
    simp only [newFollowingList, List.mem_filter, Bool.not_eq_true', hasId_eq_false]
    constructor
    · rintro ⟨h1, h2⟩
      exact ⟨(mem_jsSetList _ _).mp h1, fun hc => h2 ((mem_prevIds _ prev id).mpr hc)⟩
    · rintro ⟨h1, h2⟩
      exact ⟨(mem_jsSetList _ _).mpr h1, fun hc => h2 ((mem_prevIds _ prev id).mp hc)⟩
  · intro id
    simp only [stoppedFollowingList, List.mem_filter, Bool.not_eq_true', hasId_eq_false]
    constructor
    · rintro ⟨h1, h2⟩
      exact ⟨(mem_prevIds _ prev id).mp h1, fun hc => h2 ((mem_jsSetList _ _).mpr hc)⟩
    · rintro ⟨h1, h2⟩
      exact ⟨(mem_prevIds _ prev id).mpr h1, fun hc => h2 ((mem_jsSetList _ _).mp hc)⟩
  · rw [changes_filter_new, map_ids_newFollowerEvents]
  · rw [changes_filter_unfollowed, map_ids_unfollowedEvents]
  · rw [changes_filter_started, map_ids_startedFollowingEvents]
  · rw [changes_filter_stopped, map_ids_stoppedFollowingEvents]
  · exact List.Nodup.filter _ (nodup_jsSetList _)
  · exact List.Nodup.filter _ (nodup_jsSetList _)
  · exact List.Nodup.filter _ (nodup_jsSetList _)
  · exact List.Nodup.filter _ (nodup_jsSetList _)
